import Mathlib

/-!
The price failover chain and the IPNS cache-first resolver of openbazaar-go.

A shallow embedding of

* `bitcoin/zcashd/zcashprices.go`: the four exchange-rate decoders, `ExchangeRateProvider.fetch`,
  `ZcashPriceFetcher.fetchCurrentRates`, `GetExchangeRate`, `GetLatestRate`, `GetAllRates`
  and `NewZcashPriceFetcher`;
* `ipfs/resolve.go`: `Resolve`, `resolve`, `ResolveAltRoot`, `getFromDatastore`,
  `putToDatastore`.

Go maps are mutated in place; here every function that may write a map takes the map and
returns the map it leaves behind.  A goroutine started by a call is returned as pending, its
body being a function of the state it runs on.  A Go function that may abort with a run-time
panic returns an explicit `panic` outcome.
-/

set_option autoImplicit false

namespace Zcashd

/-- The `float64` operations the price code uses: the constant `0` (the zero value of
`var rate float64`), the product `v * rate`, the comparison `rate == 0` and
`strconv.ParseFloat(s, 64)`.  The arithmetic itself is left abstract. -/
structure Float64Ops (F : Type) where
  zero : F
  mul : F → F → F
  isZero : F → Bool
  ParseFloat : String → Except String F
  zero_isZero : isZero zero = true

/-- What `json.Decoder.Decode` stores into an `interface{}`: `nil`, `bool`, `float64`,
`string`, `[]interface{}` or `map[string]interface{}`.  An object is given by its entries,
in the order a `range` over the map visits them. -/
inductive Json (F : Type) where
  | null
  | bool (b : Bool)
  | number (x : F)
  | string (s : String)
  | array (xs : List (Json F))
  | object (kvs : List (String × Json F))

/-- A `map[string]float64`, read by key. -/
abbrev Cache (F : Type) := String → Option F

/-- What a call leaves behind: a nil error, a non-nil error, or a run-time panic. -/
inductive Status where
  | nil
  | error (msg : String)
  | panic (msg : String)
  deriving DecidableEq, Repr

section
variable {F : Type}

/-- The type assertion `dat.(map[string]interface{})`. -/
def Json.asObject : Json F → Option (List (String × Json F))
  | .object kvs => some kvs
  | _ => none

/-- The type assertion `c.([]interface{})`. -/
def Json.asArray : Json F → Option (List (Json F))
  | .array xs => some xs
  | _ => none

/-- The type assertion `r.(string)`. -/
def Json.asString : Json F → Option String
  | .string s => some s
  | _ => none

/-- The type assertion `exRate.(float64)`. -/
def Json.asFloat64 : Json F → Option F
  | .number x => some x
  | _ => none

/-- The map read `obj[k]` in its comma-ok form. -/
def field (kvs : List (String × Json F)) (k : String) : Option (Json F) :=
  kvs.lookup k

/-- The assignment `cache[k] = v`. -/
def Cache.set (cache : Cache F) (k : String) (v : F) : Cache F :=
  fun k' => if k' = k then some v else cache k'

/-- The loop `for k, v := range rates { cache[k] = v * rate }`. -/
def writeRates (ops : Float64Ops F) (rates : List (String × F)) (rate : F)
    (cache : Cache F) : Cache F :=
  rates.foldl (fun c kv => Cache.set c kv.1 (ops.mul kv.2 rate)) cache

/-- The common tail of the four decoders: the check `rate == 0`, then the write loop. -/
def finish (ops : Float64Ops F) (msg : String) (rates : List (String × F)) (rate : F)
    (cache : Cache F) : Status × Cache F :=
  if ops.isZero rate then (.error msg, cache)
  else (.nil, writeRates ops rates rate cache)

/-- `KrakenDecoder.decode`; `bp` is what `bp.GetAllRates()` returns. -/
def KrakenDecoder.decode (ops : Float64Ops F) (dat : Json F) (cache : Cache F)
    (bp : Except String (List (String × F))) : Status × Cache F :=
  match bp with
  | .error e => (.error e, cache)
  | .ok rates =>
  match dat.asObject with
  | none => (.error "KrackenDecoder type assertion failure", cache)
  | some obj =>
  match field obj "result" with
  | none => (.error "KrakenDecoder: field `result` not found", cache)
  | some result =>
  match result.asObject with
  | none => (.error "KrackenDecoder type assertion failure", cache)
  | some resultMap =>
  match field resultMap "BCHXBT" with
  | none => (.error "KrakenDecoder: field `BCHXBT` not found", cache)
  | some pair =>
  match pair.asObject with
  | none => (.error "KrackenDecoder type assertion failure", cache)
  | some pairMap =>
  match field pairMap "c" with
  | none => (.error "KrakenDecoder: field `c` not found", cache)
  | some c =>
  match c.asArray with
  | none => (.error "KrackenDecoder type assertion failure", cache)
  | some cList =>
  match cList with
  | [] => (.panic "runtime error: index out of range", cache)
  | c0 :: _ =>
  match c0.asString with
  | none => (.error "KrackenDecoder type assertion failure", cache)
  | some rateStr =>
  match ops.ParseFloat rateStr with
  | .error e => (.error e, cache)
  | .ok price =>
    finish ops "Bitcoin-BitcoinCash price data not available" rates price cache

/-- `BitfinexDecoder.decode`. -/
def BitfinexDecoder.decode (ops : Float64Ops F) (dat : Json F) (cache : Cache F)
    (bp : Except String (List (String × F))) : Status × Cache F :=
  match bp with
  | .error e => (.error e, cache)
  | .ok rates =>
  match dat.asObject with
  | none => (.error "BitfinexDecoder type assertion failure", cache)
  | some obj =>
  match field obj "last_price" with
  | none => (.error "BitfinexDecoder: field `last_price` not found", cache)
  | some r =>
  match r.asString with
  | none => (.error "BitfinexDecoder type assertion failure", cache)
  | some rateStr =>
  match ops.ParseFloat rateStr with
  | .error e => (.error e, cache)
  | .ok price =>
    finish ops "Bitcoin-BitcoinCash price data not available" rates price cache

/-- `BittrexDecoder.decode`. -/
def BittrexDecoder.decode (ops : Float64Ops F) (dat : Json F) (cache : Cache F)
    (bp : Except String (List (String × F))) : Status × Cache F :=
  match bp with
  | .error e => (.error e, cache)
  | .ok rates =>
  match dat.asObject with
  | none => (.error "BittrexDecoder type assertion failure", cache)
  | some obj =>
  match field obj "result" with
  | none => (.error "BittrexDecoder: field `result` not found", cache)
  | some result =>
  match result.asObject with
  | none => (.error "BittrexDecoder type assertion failure", cache)
  | some resultMap =>
  match field resultMap "Last" with
  | none => (.error "BittrexDecoder: field `Last` not found", cache)
  | some exRate =>
  match exRate.asFloat64 with
  | none => (.error "BittrexDecoder type assertion failure", cache)
  | some rate =>
    finish ops "Bitcoin-BitcoinCash price data not available" rates rate cache

/-- The loop `for k, v := range data` of `PoloniexDecoder.decode`, started with the current
value of `rate`: the rate it ends with, or the error it returns from inside the loop. -/
def PoloniexDecoder.rangeData (ops : Float64Ops F) :
    List (String × Json F) → F → Except String F
  | [], rate => .ok rate
  | (k, v) :: rest, rate =>
    if k = "BTC_ZEC" then
      match v.asObject with
      | none => .error "PoloniexDecoder.decode: Type assertion failed"
      | some val =>
        match (field val "last").bind Json.asString with
        | none =>
          .error "PoloniexDecoder.decode: Type assertion failed, missing \x27last\x27 (string) field"
        | some s =>
          match ops.ParseFloat s with
          | .error e => .error e
          | .ok price => PoloniexDecoder.rangeData ops rest price
    else PoloniexDecoder.rangeData ops rest rate

/-- `PoloniexDecoder.decode`; the unchecked assertion `dat.(map[string]interface{})` panics
on anything but an object. -/
def PoloniexDecoder.decode (ops : Float64Ops F) (dat : Json F) (cache : Cache F)
    (bp : Except String (List (String × F))) : Status × Cache F :=
  match bp with
  | .error e => (.error e, cache)
  | .ok rates =>
  match dat.asObject with
  | none => (.panic "interface conversion: interface \x7b\x7d is not map[string]interface \x7b\x7d", cache)
  | some data =>
  match PoloniexDecoder.rangeData ops data ops.zero with
  | .error e => (.error e, cache)
  | .ok rate => finish ops "Bitcoin-Zcash price data not available" rates rate cache

/-- The implementations of the interface `ExchangeRateDecoder`. -/
inductive ExchangeRateDecoder where
  | KrakenDecoder
  | PoloniexDecoder
  | BitfinexDecoder
  | BittrexDecoder
  deriving DecidableEq, Repr

/-- The interface method `decode`, dispatched on the implementation. -/
def ExchangeRateDecoder.decode (ops : Float64Ops F) (d : ExchangeRateDecoder) (dat : Json F)
    (cache : Cache F) (bp : Except String (List (String × F))) : Status × Cache F :=
  match d with
  | .KrakenDecoder => KrakenDecoder.decode ops dat cache bp
  | .PoloniexDecoder => PoloniexDecoder.decode ops dat cache bp
  | .BitfinexDecoder => BitfinexDecoder.decode ops dat cache bp
  | .BittrexDecoder => BittrexDecoder.decode ops dat cache bp

/-- `ExchangeRateProvider`.  `client` answers `client.Get(url)`: a transport error, or a
response whose body `json.Decoder.Decode` either rejects or decodes.  `bitcoinProvider` is
what `bitcoinProvider.GetAllRates()` returns.  The field `cache` of the Go struct is the map
of the fetcher itself, shared by all providers: it is passed to `fetch`. -/
structure ExchangeRateProvider (F : Type) where
  fetchUrl : String
  client : String → Except String (Except String (Json F))
  decoder : ExchangeRateDecoder
  bitcoinProvider : Except String (List (String × F))

/-- `ExchangeRateProvider.fetch`. -/
def ExchangeRateProvider.fetch (ops : Float64Ops F) (provider : ExchangeRateProvider F)
    (cache : Cache F) : Status × Cache F :=
  if provider.fetchUrl.length = 0 then (.error "Provider has no fetchUrl", cache)
  else
    match provider.client provider.fetchUrl with
    | .error e => (.error e, cache)
    | .ok resp =>
      match resp with
      | .error e => (.error e, cache)
      | .ok dataMap => provider.decoder.decode ops dataMap cache provider.bitcoinProvider

/-- The outcome of one round of `fetchCurrentRates`: what it returns, the cache it leaves,
and the providers whose `fetch` it called, in call order. -/
structure Round (F : Type) where
  status : Status
  cache : Cache F
  called : List (ExchangeRateProvider F)

/-- The loop `for _, provider := range z.providers` of `fetchCurrentRates`, with the error
returned after the loop. -/
def fetchLoop (ops : Float64Ops F) :
    List (ExchangeRateProvider F) → Cache F → List (ExchangeRateProvider F) → Round F
  | [], cache, called => ⟨.error "All exchange rate API queries failed", cache, called⟩
  | provider :: rest, cache, called =>
    match provider.fetch ops cache with
    | (.nil, cache') => ⟨.nil, cache', called ++ [provider]⟩
    | (.error _, cache') => fetchLoop ops rest cache' (called ++ [provider])
    | (.panic msg, cache') => ⟨.panic msg, cache', called ++ [provider]⟩

/-- `ZcashPriceFetcher`: the cache and the ordered provider list. -/
structure ZcashPriceFetcher (F : Type) where
  cache : Cache F
  providers : List (ExchangeRateProvider F)

/-- `ZcashPriceFetcher.fetchCurrentRates`.  The mutex it holds from entry to return makes the
round run alone on the cache; the round is modelled as one sequential step. -/
def ZcashPriceFetcher.fetchCurrentRates (ops : Float64Ops F) (z : ZcashPriceFetcher F) :
    Round F :=
  fetchLoop ops z.providers z.cache []

/-- `WellFormed ops d dat rate`: the decoded response `dat` has the shape the decoder `d`
reads, and the rate the decoder extracts from it is `rate`.  For Poloniex the ticker map has
one entry per key, and a map without the key `BTC_ZEC` leaves the rate at its zero value. -/
inductive WellFormed (ops : Float64Ops F) : ExchangeRateDecoder → Json F → F → Prop where
  | kraken (obj resultMap pairMap : List (String × Json F)) (rateStr : String)
      (more : List (Json F)) (rate : F)
      (hresult : field obj "result" = some (.object resultMap))
      (hpair : field resultMap "BCHXBT" = some (.object pairMap))
      (hc : field pairMap "c" = some (.array (.string rateStr :: more)))
      (hparse : ops.ParseFloat rateStr = .ok rate) :
      WellFormed ops .KrakenDecoder (.object obj) rate
  | bitfinex (obj : List (String × Json F)) (rateStr : String) (rate : F)
      (hlast : field obj "last_price" = some (.string rateStr))
      (hparse : ops.ParseFloat rateStr = .ok rate) :
      WellFormed ops .BitfinexDecoder (.object obj) rate
  | bittrex (obj resultMap : List (String × Json F)) (rate : F)
      (hresult : field obj "result" = some (.object resultMap))
      (hlast : field resultMap "Last" = some (.number rate)) :
      WellFormed ops .BittrexDecoder (.object obj) rate
  | poloniex (data val : List (String × Json F)) (rateStr : String) (rate : F)
      (hkeys : (data.map Prod.fst).Nodup)
      (hpair : field data "BTC_ZEC" = some (.object val))
      (hlast : field val "last" = some (.string rateStr))
      (hparse : ops.ParseFloat rateStr = .ok rate) :
      WellFormed ops .PoloniexDecoder (.object data) rate
  | poloniexNoPair (data : List (String × Json F))
      (hpair : field data "BTC_ZEC" = none) :
      WellFormed ops .PoloniexDecoder (.object data) ops.zero

/-- The provider `p` receives a response that is well formed for its decoder and carries
the rate `rate`. -/
def Yields (ops : Float64Ops F) (p : ExchangeRateProvider F) (rate : F) : Prop :=
  ∃ dat, p.client p.fetchUrl = .ok (.ok dat) ∧ WellFormed ops p.decoder dat rate

/-- How a call of `GetExchangeRate` or `GetLatestRate` ends: it returns a `(float64, error)`
pair, or it panics. -/
inductive RateRet (F : Type) where
  | returned (price : F) (err : Option String)
  | panic (msg : String)

/-- What a read of the fetcher leaves: its result, the cache after it, and the providers
whose `fetch` was called on the way. -/
structure Reading (F : Type) where
  ret : RateRet F
  cache : Cache F
  called : List (ExchangeRateProvider F)

/-- `ZcashPriceFetcher.GetExchangeRate`. -/
def ZcashPriceFetcher.GetExchangeRate (ops : Float64Ops F) (z : ZcashPriceFetcher F)
    (currencyCode : String) : Reading F :=
  match z.cache currencyCode with
  | none => ⟨.returned ops.zero (some "Currency not tracked"), z.cache, []⟩
  | some price => ⟨.returned price none, z.cache, []⟩

/-- `ZcashPriceFetcher.GetLatestRate`: the result of `z.fetchCurrentRates()` is dropped; a
panic in it ends the call. -/
def ZcashPriceFetcher.GetLatestRate (ops : Float64Ops F) (z : ZcashPriceFetcher F)
    (currencyCode : String) : Reading F :=
  match z.fetchCurrentRates ops with
  | ⟨.panic msg, cache, called⟩ => ⟨.panic msg, cache, called⟩
  | ⟨_, cache, called⟩ =>
    match cache currencyCode with
    | none => ⟨.returned ops.zero (some "Currency not tracked"), cache, called⟩
    | some price => ⟨.returned price none, cache, called⟩

/-- `ZcashPriceFetcher.GetAllRates`: the cache map itself and a nil error. -/
def ZcashPriceFetcher.GetAllRates (z : ZcashPriceFetcher F) : Cache F × Option String :=
  (z.cache, none)

/-- What `NewZcashPriceFetcher` hands back: the fetcher, and whether the goroutine started by
`go z.run()` has still to make its first call of `fetchCurrentRates`. -/
structure Started (F : Type) where
  fetcher : ZcashPriceFetcher F
  runPending : Bool

/-- `NewZcashPriceFetcher`.  The HTTP client and the bitcoin price fetcher it builds from the
dialer are given by what they answer. -/
def NewZcashPriceFetcher (client : String → Except String (Except String (Json F)))
    (bp : Except String (List (String × F))) : Started F :=
  ⟨⟨fun _ => none,
      [⟨"https://api.kraken.com/0/public/Ticker?pair=ZECXBT", client, .KrakenDecoder, bp⟩,
        ⟨"https://api.bitfinex.com/v1/pubticker/zecbtc", client, .BitfinexDecoder, bp⟩,
        ⟨"https://bittrex.com/api/v1.1/public/getticker?market=btc-zec", client,
          .BittrexDecoder, bp⟩,
        ⟨"https://poloniex.com/public?command=returnTicker", client, .PoloniexDecoder, bp⟩]⟩,
    true⟩

/-- The goroutine `z.run()` as far as the end of its first `z.fetchCurrentRates()`, on the
fetcher as it is when the goroutine gets to run. -/
def Started.runFirst (ops : Float64Ops F) (s : Started F) : Started F :=
  if s.runPending then
    ⟨⟨(s.fetcher.fetchCurrentRates ops).cache, s.fetcher.providers⟩, false⟩
  else s

end

/-- The value of a string of decimal digits, if it is one. -/
def readDigits : List Char → Option Nat
  | [] => none
  | cs =>
    cs.foldl
      (fun acc c => acc.bind fun n => if c.isDigit then some (10 * n + (c.toNat - 48)) else none)
      (some 0)

/-- The arithmetic of `float64` on integer-valued rates of small magnitude, where it is
exact; `ParseFloat` reads the unsigned decimal integer literals. -/
def intOps : Float64Ops Int where
  zero := 0
  mul := fun x y => x * y
  isZero := fun x => decide (x = 0)
  ParseFloat := fun s =>
    match readDigits s.data with
    | some n => .ok (Int.ofNat n)
    | none => .error "strconv.ParseFloat: invalid syntax"
  zero_isZero := by decide

/-- A cache with no entry. -/
def emptyCache : Cache Int := fun _ => none

/-- A cache that holds 5 for `USD`. -/
def usdCache : Cache Int := Cache.set emptyCache "USD" 5

/-- A table of bitcoin base rates. -/
def btcRates : List (String × Int) := [("USD", 100), ("EUR", 90)]

/-- A Kraken provider whose request fails in transport. -/
def krakenDown : ExchangeRateProvider Int where
  fetchUrl := "https://api.kraken.com/0/public/Ticker?pair=ZECXBT"
  client := fun _ => .error "dial tcp: i/o timeout"
  decoder := .KrakenDecoder
  bitcoinProvider := .ok btcRates

/-- A Bitfinex provider that answers with the rate 2. -/
def bitfinexTwo : ExchangeRateProvider Int where
  fetchUrl := "https://api.bitfinex.com/v1/pubticker/zecbtc"
  client := fun _ => .ok (.ok (.object [("mid", .string "2"), ("last_price", .string "2")]))
  decoder := .BitfinexDecoder
  bitcoinProvider := .ok btcRates

/-- A Bittrex provider that answers with the rate 3. -/
def bittrexThree : ExchangeRateProvider Int where
  fetchUrl := "https://bittrex.com/api/v1.1/public/getticker?market=btc-zec"
  client := fun _ =>
    .ok (.ok (.object [("success", .bool true),
      ("result", .object [("Bid", .number 3), ("Last", .number 3)])]))
  decoder := .BittrexDecoder
  bitcoinProvider := .ok btcRates

/-- A Kraken ticker for `BCHXBT` whose last-trade list is `rateStr` and a volume. -/
def krakenTicker (rateStr : String) : Json Int :=
  .object [("error", .array []),
    ("result", .object [("BCHXBT", .object [("c", .array [.string rateStr, .string "1"])])])]

/-- A Kraken ticker for `BCHXBT` whose field `c` is the empty list. -/
def krakenEmptyC : Json Int :=
  .object [("error", .array []),
    ("result", .object [("BCHXBT", .object [("c", .array [])])])]

/-- A Poloniex ticker map whose `BTC_ZEC` entry has `rateStr` as last price. -/
def poloniexTicker (rateStr : String) : Json Int :=
  .object [("BTC_ETH", .object [("last", .string "1")]),
    ("BTC_ZEC", .object [("last", .string rateStr)])]

/-- The provider of decoder `d` at `url` that receives the response `dat`. -/
def answering (d : ExchangeRateDecoder) (url : String) (dat : Json Int) :
    ExchangeRateProvider Int where
  fetchUrl := url
  client := fun _ => .ok (.ok dat)
  decoder := d
  bitcoinProvider := .ok btcRates

/-- The four providers of `NewZcashPriceFetcher`, every one answering with the rate 0. -/
def allZero : List (ExchangeRateProvider Int) :=
  [answering .KrakenDecoder "https://api.kraken.com/0/public/Ticker?pair=ZECXBT"
      (krakenTicker "0"),
    answering .BitfinexDecoder "https://api.bitfinex.com/v1/pubticker/zecbtc"
      (.object [("last_price", .string "0")]),
    answering .BittrexDecoder "https://bittrex.com/api/v1.1/public/getticker?market=btc-zec"
      (.object [("result", .object [("Last", .number 0)])]),
    answering .PoloniexDecoder "https://poloniex.com/public?command=returnTicker"
      (poloniexTicker "0")]

/-- A network on which only the Bitfinex ticker answers, with the rate 2. -/
def bitfinexOnly : String → Except String (Except String (Json Int)) :=
  fun url =>
    if url = "https://api.bitfinex.com/v1/pubticker/zecbtc" then
      .ok (.ok (.object [("last_price", .string "2")]))
    else .error "dial tcp: i/o timeout"

/-- A Kraken ticker for the pair `ZECXBT`: the result holds the entry of that pair only. -/
def krakenZecTicker : Json Int :=
  .object [("error", .array []),
    ("result", .object [("XZECXXBT", .object [("c", .array [.string "2", .string "1"])])])]

/-- A Bittrex ticker whose last price is `-3`. -/
def bittrexNegative : Json Int :=
  .object [("success", .bool true), ("result", .object [("Last", .number (-3))])]

end Zcashd

namespace Ipfs

/-- The error values the resolver tells apart: `ds.ErrNotFound`, `namesys.ErrResolveFailed`,
and any other error. -/
inductive Error where
  | ErrNotFound
  | ErrResolveFailed
  | other (msg : String)
  deriving DecidableEq, Repr

/-- The Go type `ipath.Path` is a string. -/
abbrev Path := String

/-- The Go type `peer.ID` is a string. -/
abbrev PeerID := String

/-- The library calls of `resolve.go`, over a datastore state `σ`: `datastore.Get`,
`datastore.Put` (the error it returns and the datastore it leaves), `namesys.IpnsDsKey`,
`p.Pretty()`, `ipath.ParsePath` and `pth.Segments()`. -/
structure Lib (σ : Type) where
  Get : σ → String → Except Error String
  Put : σ → String → String → Option Error × σ
  IpnsDsKey : PeerID → String
  Pretty : PeerID → String
  ParsePath : String → Except Error Path
  Segments : Path → List String

/-- The parts of `core.IpfsNode` the resolver uses.  `Namesys name timeout count` is what
`n.Namesys.Resolve` returns for `name` under a context that expires after `timeout`, with
the option `DhtRecordCount(count)` when `count` is given; `Datastore` is the state of
`n.Repo.Datastore()`. -/
structure IpfsNode (σ : Type) where
  Namesys : String → Nat → Option Nat → Except Error Path
  Datastore : σ

/-- How a call of `Resolve` ends: it returns a `(string, error)` pair, or it panics. -/
inductive Ret where
  | returned (s : String) (err : Option Error)
  | panic (msg : String)
  deriving DecidableEq, Repr

/-- What a call of `Resolve` leaves: its result, the datastore when it returns, and whether
it started the goroutine that updates the cache in the background. -/
structure Outcome (σ : Type) where
  ret : Ret
  datastore : σ
  spawned : Bool

section
variable {σ : Type}

/-- The function `resolve`. -/
def resolve (lib : Lib σ) (n : IpfsNode σ) (p : PeerID) (timeout : Nat) : Except Error Path :=
  match n.Namesys ("/ipns/" ++ lib.Pretty p) timeout (some 1) with
  | .error err => .error err
  | .ok pth => .ok pth

/-- The function `getFromDatastore`. -/
def getFromDatastore (lib : Lib σ) (datastore : σ) (p : PeerID) : Except Error Path :=
  match lib.Get datastore (lib.IpnsDsKey p) with
  | .error err =>
    if err = Error.ErrNotFound then .error Error.ErrResolveFailed else .error err
  | .ok data => lib.ParsePath data

/-- The function `putToDatastore`; `pth.String()` is the path itself. -/
def putToDatastore (lib : Lib σ) (datastore : σ) (p : PeerID) (pth : Path) :
    Option Error × σ :=
  lib.Put datastore (lib.IpnsDsKey p) pth

/-- The statement `return pth.Segments()[1], nil`. -/
def returnSegment (lib : Lib σ) (pth : Path) : Ret :=
  match (lib.Segments pth)[1]? with
  | some s => .returned s none
  | none => .panic "runtime error: index out of range"

/-- The body of the goroutine `Resolve` starts after a cache hit, run on the datastore as it
is when the goroutine runs: the datastore it leaves. -/
def Resolve.background (lib : Lib σ) (n : IpfsNode σ) (p : PeerID) (timeout : Nat)
    (datastore : σ) : σ :=
  match resolve lib n p timeout with
  | .error _ => datastore
  | .ok pth => (putToDatastore lib datastore p pth).2

/-- The second half of `Resolve`, from `pth, err := resolve(n, p, timeout)` on. -/
def Resolve.network (lib : Lib σ) (n : IpfsNode σ) (p : PeerID) (timeout : Nat) :
    Outcome σ :=
  match resolve lib n p timeout with
  | .error _ =>
    match getFromDatastore lib n.Datastore p with
    | .error err => ⟨.returned "" (some err), n.Datastore, false⟩
    | .ok pth => ⟨returnSegment lib pth, n.Datastore, false⟩
  | .ok pth =>
    ⟨returnSegment lib pth, (putToDatastore lib n.Datastore p pth).2, false⟩

/-- The function `Resolve`. -/
def Resolve (lib : Lib σ) (n : IpfsNode σ) (p : PeerID) (timeout : Nat) (usecache : Bool) :
    Outcome σ :=
  if usecache then
    match getFromDatastore lib n.Datastore p with
    | .ok pth => ⟨returnSegment lib pth, n.Datastore, true⟩
    | .error _ => Resolve.network lib n p timeout
  else Resolve.network lib n p timeout

/-- The datastore once the goroutine started by the call, if any, has run to its end on the
datastore the call left. -/
def Outcome.settled (lib : Lib σ) (n : IpfsNode σ) (p : PeerID) (timeout : Nat)
    (out : Outcome σ) : σ :=
  if out.spawned then Resolve.background lib n p timeout out.datastore else out.datastore

/-- The function `ResolveAltRoot`. -/
def ResolveAltRoot (lib : Lib σ) (n : IpfsNode σ) (p : PeerID) (altRoot : String)
    (timeout : Nat) : Outcome σ :=
  match n.Namesys ("/ipns/" ++ lib.Pretty p ++ ":" ++ altRoot) timeout none with
  | .error err => ⟨.returned "" (some err), n.Datastore, false⟩
  | .ok pth => ⟨returnSegment lib pth, n.Datastore, false⟩

end

/-- A datastore held as a list of entries: `Get` reports `ds.ErrNotFound` for a missing key,
`Put` always succeeds.  Paths are parsed as they are and `Segments` knows two paths. -/
def listLib : Lib (List (String × String)) where
  Get := fun store key =>
    match store.lookup key with
    | some data => .ok data
    | none => .error Error.ErrNotFound
  Put := fun store key value => (none, (key, value) :: store)
  IpnsDsKey := fun p => "/ipns/" ++ p
  Pretty := fun p => p
  ParsePath := fun data => .ok data
  Segments := fun pth =>
    if pth = "/ipfs/zb2old" then ["ipfs", "zb2old"]
    else if pth = "/ipfs/zb2new" then ["ipfs", "zb2new"]
    else []

/-- The datastore of `listLib` on a full disk: every `Put` fails and writes nothing. -/
def fullDiskLib : Lib (List (String × String)) :=
  { listLib with Put := fun store _ _ => (some (.other "no space left on device"), store) }

/-- A name system that cannot be reached before the deadline. -/
def offline : String → Nat → Option Nat → Except Error Path :=
  fun _ _ _ => .error (.other "context deadline exceeded")

/-- A name system that resolves every name to `/ipfs/zb2new`. -/
def online : String → Nat → Option Nat → Except Error Path :=
  fun _ _ _ => .ok "/ipfs/zb2new"

/-- A datastore that holds the record `/ipfs/zb2old` for the peer `QmPeer`. -/
def warmStore : List (String × String) := [("/ipns/QmPeer", "/ipfs/zb2old")]

end Ipfs

namespace Zcashd

section
variable {F : Type}

/-! ### The decoders write the cache only when they return nil -/

theorem finish_cache (ops : Float64Ops F) (msg : String) (rates : List (String × F))
    (rate : F) (cache : Cache F) (h : (finish ops msg rates rate cache).1 ≠ Status.nil) :
    (finish ops msg rates rate cache).2 = cache := by
  unfold finish at h ⊢
  split <;> simp_all

theorem kraken_decode_cache (ops : Float64Ops F) (dat : Json F) (cache : Cache F)
    (bp : Except String (List (String × F)))
    (h : (KrakenDecoder.decode ops dat cache bp).1 ≠ Status.nil) :
    (KrakenDecoder.decode ops dat cache bp).2 = cache := by
  revert h
  unfold KrakenDecoder.decode
  repeat' split
  all_goals first
    | exact fun _ => rfl
    | exact finish_cache ops _ _ _ _

theorem bitfinex_decode_cache (ops : Float64Ops F) (dat : Json F) (cache : Cache F)
    (bp : Except String (List (String × F)))
    (h : (BitfinexDecoder.decode ops dat cache bp).1 ≠ Status.nil) :
    (BitfinexDecoder.decode ops dat cache bp).2 = cache := by
  revert h
  unfold BitfinexDecoder.decode
  repeat' split
  all_goals first
    | exact fun _ => rfl
    | exact finish_cache ops _ _ _ _

theorem bittrex_decode_cache (ops : Float64Ops F) (dat : Json F) (cache : Cache F)
    (bp : Except String (List (String × F)))
    (h : (BittrexDecoder.decode ops dat cache bp).1 ≠ Status.nil) :
    (BittrexDecoder.decode ops dat cache bp).2 = cache := by
  revert h
  unfold BittrexDecoder.decode
  repeat' split
  all_goals first
    | exact fun _ => rfl
    | exact finish_cache ops _ _ _ _

theorem poloniex_decode_cache (ops : Float64Ops F) (dat : Json F) (cache : Cache F)
    (bp : Except String (List (String × F)))
    (h : (PoloniexDecoder.decode ops dat cache bp).1 ≠ Status.nil) :
    (PoloniexDecoder.decode ops dat cache bp).2 = cache := by
  revert h
  unfold PoloniexDecoder.decode
  repeat' split
  all_goals first
    | exact fun _ => rfl
    | exact finish_cache ops _ _ _ _

theorem decode_cache_of_not_nil (ops : Float64Ops F) (d : ExchangeRateDecoder)
    (dat : Json F) (cache : Cache F) (bp : Except String (List (String × F)))
    (h : (d.decode ops dat cache bp).1 ≠ Status.nil) :
    (d.decode ops dat cache bp).2 = cache := by
  cases d
  · exact kraken_decode_cache ops dat cache bp h
  · exact poloniex_decode_cache ops dat cache bp h
  · exact bitfinex_decode_cache ops dat cache bp h
  · exact bittrex_decode_cache ops dat cache bp h

theorem ExchangeRateProvider.fetch_cache (ops : Float64Ops F) (provider : ExchangeRateProvider F)
    (cache : Cache F) (h : (provider.fetch ops cache).1 ≠ Status.nil) :
    (provider.fetch ops cache).2 = cache := by
  revert h
  unfold ExchangeRateProvider.fetch
  repeat' split
  all_goals first
    | exact fun _ => rfl
    | exact decode_cache_of_not_nil ops _ _ _ _

/-! ### The failover loop -/

theorem fetchLoop_error_step (ops : Float64Ops F) (p : ExchangeRateProvider F)
    (rest : List (ExchangeRateProvider F)) (cache : Cache F)
    (called : List (ExchangeRateProvider F)) (e : String)
    (h : (p.fetch ops cache).1 = Status.error e) :
    fetchLoop ops (p :: rest) cache called = fetchLoop ops rest cache (called ++ [p]) := by
  have hc := ExchangeRateProvider.fetch_cache ops p cache (by rw [h]; exact Status.noConfusion)
  rcases hf : p.fetch ops cache with ⟨st, c⟩
  rw [hf] at h hc
  simp only at h hc
  subst h hc
  simp only [fetchLoop, hf]

theorem fetchLoop_nil_step (ops : Float64Ops F) (p : ExchangeRateProvider F)
    (rest : List (ExchangeRateProvider F)) (cache : Cache F)
    (called : List (ExchangeRateProvider F))
    (h : (p.fetch ops cache).1 = Status.nil) :
    fetchLoop ops (p :: rest) cache called
      = ⟨Status.nil, (p.fetch ops cache).2, called ++ [p]⟩ := by
  rcases hf : p.fetch ops cache with ⟨st, c⟩
  rw [hf] at h
  simp only at h
  subst h
  simp only [fetchLoop, hf]

theorem fetchLoop_panic_step (ops : Float64Ops F) (p : ExchangeRateProvider F)
    (rest : List (ExchangeRateProvider F)) (cache : Cache F)
    (called : List (ExchangeRateProvider F)) (msg : String)
    (h : (p.fetch ops cache).1 = Status.panic msg) :
    fetchLoop ops (p :: rest) cache called
      = ⟨Status.panic msg, (p.fetch ops cache).2, called ++ [p]⟩ := by
  rcases hf : p.fetch ops cache with ⟨st, c⟩
  rw [hf] at h
  simp only at h
  subst h
  simp only [fetchLoop, hf]

theorem fetchLoop_skip_failed (ops : Float64Ops F) (pre rest : List (ExchangeRateProvider F))
    (cache : Cache F) (called : List (ExchangeRateProvider F))
    (hpre : ∀ q ∈ pre, ∃ e, (q.fetch ops cache).1 = Status.error e) :
    fetchLoop ops (pre ++ rest) cache called = fetchLoop ops rest cache (called ++ pre) := by
  induction pre generalizing called with
  | nil => simp
  | cons q qs ih =>
    obtain ⟨e, he⟩ := hpre q (List.mem_cons_self q qs)
    rw [List.cons_append, fetchLoop_error_step ops q (qs ++ rest) cache called e he,
      ih (called ++ [q]) (fun r hr => hpre r (List.mem_cons_of_mem q hr))]
    simp

theorem fetchLoop_called (ops : Float64Ops F) (ps : List (ExchangeRateProvider F))
    (cache : Cache F) (called : List (ExchangeRateProvider F)) :
    ∃ l, l <+: ps ∧ (fetchLoop ops ps cache called).called = called ++ l := by
  induction ps generalizing cache called with
  | nil => exact ⟨[], List.prefix_refl [], by simp [fetchLoop]⟩
  | cons p rest ih =>
    rcases hst : (p.fetch ops cache).1 with _ | e | msg
    · rw [fetchLoop_nil_step ops p rest cache called hst]
      exact ⟨[p], by simp, rfl⟩
    · rw [fetchLoop_error_step ops p rest cache called e hst]
      obtain ⟨l, hl, heq⟩ := ih cache (called ++ [p])
      refine ⟨p :: l, ?_, ?_⟩
      · exact (List.prefix_cons_inj p).mpr hl
      · rw [heq]; simp
    · rw [fetchLoop_panic_step ops p rest cache called msg hst]
      exact ⟨[p], by simp, rfl⟩

theorem fetchLoop_error_iff (ops : Float64Ops F) (ps : List (ExchangeRateProvider F))
    (cache : Cache F) (called : List (ExchangeRateProvider F)) :
    (∃ e, (fetchLoop ops ps cache called).status = Status.error e)
      ↔ ∀ p ∈ ps, ∃ e, (p.fetch ops cache).1 = Status.error e := by
  induction ps generalizing called with
  | nil => simp [fetchLoop]
  | cons p rest ih =>
    rcases hst : (p.fetch ops cache).1 with _ | e | msg
    · rw [fetchLoop_nil_step ops p rest cache called hst]
      constructor
      · rintro ⟨e, he⟩
        exact absurd he (by simp)
      · intro h
        obtain ⟨e, he⟩ := h p (List.mem_cons_self p rest)
        rw [hst] at he
        exact absurd he (by simp)
    · rw [fetchLoop_error_step ops p rest cache called e hst, ih (called ++ [p])]
      constructor
      · intro h q hq
        rcases List.mem_cons.mp hq with rfl | hq
        · exact ⟨e, hst⟩
        · exact h q hq
      · intro h q hq
        exact h q (List.mem_cons_of_mem p hq)
    · rw [fetchLoop_panic_step ops p rest cache called msg hst]
      constructor
      · rintro ⟨e, he⟩
        exact absurd he (by simp)
      · intro h
        obtain ⟨e, he⟩ := h p (List.mem_cons_self p rest)
        rw [hst] at he
        exact absurd he (by simp)

theorem fetchLoop_error_msg (ops : Float64Ops F) (ps : List (ExchangeRateProvider F))
    (cache : Cache F) (called : List (ExchangeRateProvider F)) (e : String)
    (h : (fetchLoop ops ps cache called).status = Status.error e) :
    e = "All exchange rate API queries failed" := by
  induction ps generalizing called with
  | nil =>
    simp only [fetchLoop, Status.error.injEq] at h
    exact h.symm
  | cons p rest ih =>
    rcases hst : (p.fetch ops cache).1 with _ | e' | msg
    · rw [fetchLoop_nil_step ops p rest cache called hst] at h
      exact absurd h (by simp)
    · rw [fetchLoop_error_step ops p rest cache called e' hst] at h
      exact ih (called ++ [p]) h
    · rw [fetchLoop_panic_step ops p rest cache called msg hst] at h
      exact absurd h (by simp)

/-- C1. `fetchCurrentRates` calls the providers in list order and stops at the first one
whose `fetch` returns nil: when every provider before `p` fails and `p` succeeds, it returns
nil, the cache is the one `p` wrote, and exactly the providers up to `p` were called, so none
after `p`; and whatever the outcomes, the providers called are a prefix of the list. -/
theorem fetchCurrentRates_stops_at_first_success (ops : Float64Ops F)
    (pre post : List (ExchangeRateProvider F)) (p : ExchangeRateProvider F) (cache : Cache F)
    (hpre : ∀ q ∈ pre, ∃ e, (q.fetch ops cache).1 = Status.error e)
    (hp : (p.fetch ops cache).1 = Status.nil) :
    ZcashPriceFetcher.fetchCurrentRates ops ⟨cache, pre ++ p :: post⟩
        = ⟨Status.nil, (p.fetch ops cache).2, pre ++ [p]⟩
      ∧ ∀ z : ZcashPriceFetcher F,
          (ZcashPriceFetcher.fetchCurrentRates ops z).called <+: z.providers := by
  constructor
  · unfold ZcashPriceFetcher.fetchCurrentRates
    simp only
    rw [fetchLoop_skip_failed ops pre (p :: post) cache [] hpre,
      fetchLoop_nil_step ops p post cache ([] ++ pre) hp]
    simp
  · intro z
    obtain ⟨l, hl, heq⟩ := fetchLoop_called ops z.providers z.cache []
    unfold ZcashPriceFetcher.fetchCurrentRates
    rw [heq]
    simpa using hl

/-- C7. `fetchCurrentRates` returns a non-nil error exactly when the `fetch` of every
provider returns an error; the error is then always "All exchange rate API queries failed",
whatever the providers reported; and this is what an empty provider list returns. -/
theorem fetchCurrentRates_error_iff_all_failed (ops : Float64Ops F) (z : ZcashPriceFetcher F) :
    ((∃ e, (ZcashPriceFetcher.fetchCurrentRates ops z).status = Status.error e)
        ↔ ∀ p ∈ z.providers, ∃ e, (p.fetch ops z.cache).1 = Status.error e)
      ∧ (∀ e, (ZcashPriceFetcher.fetchCurrentRates ops z).status = Status.error e →
          e = "All exchange rate API queries failed")
      ∧ (ZcashPriceFetcher.fetchCurrentRates ops ⟨z.cache, []⟩).status
          = Status.error "All exchange rate API queries failed" := by
  refine ⟨fetchLoop_error_iff ops z.providers z.cache [], ?_, rfl⟩
  intro e he
  exact fetchLoop_error_msg ops z.providers z.cache [] e he

/-! ### Well-formed responses -/

theorem field_eq_none_of_not_mem (kvs : List (String × Json F)) (k : String)
    (h : k ∉ kvs.map Prod.fst) : field kvs k = none := by
  induction kvs with
  | nil => rfl
  | cons e rest ih =>
    obtain ⟨k', v⟩ := e
    simp only [List.map_cons, List.mem_cons, not_or] at h
    have hne : (k == k') = false := by simpa using h.1
    simp only [field, List.lookup_cons, hne]
    exact ih h.2

theorem PoloniexDecoder.rangeData_no_pair (ops : Float64Ops F) (data : List (String × Json F))
    (rate : F) (h : field data "BTC_ZEC" = none) :
    PoloniexDecoder.rangeData ops data rate = .ok rate := by
  induction data with
  | nil => rfl
  | cons e rest ih =>
    obtain ⟨k, v⟩ := e
    by_cases hk : k = "BTC_ZEC"
    · subst hk
      simp [field, List.lookup_cons] at h
    · have hne : ("BTC_ZEC" == k) = false := by simpa using fun h' => hk h'.symm
      simp only [field, List.lookup_cons, hne] at h
      simp only [PoloniexDecoder.rangeData, hk, if_false]
      exact ih h

theorem PoloniexDecoder.rangeData_pair (ops : Float64Ops F) (data val : List (String × Json F))
    (rateStr : String) (rate r0 : F) (hkeys : (data.map Prod.fst).Nodup)
    (hpair : field data "BTC_ZEC" = some (.object val))
    (hlast : field val "last" = some (.string rateStr))
    (hparse : ops.ParseFloat rateStr = .ok rate) :
    PoloniexDecoder.rangeData ops data r0 = .ok rate := by
  induction data with
  | nil => simp [field] at hpair
  | cons e rest ih =>
    obtain ⟨k, v⟩ := e
    simp only [List.map_cons, List.nodup_cons] at hkeys
    by_cases hk : k = "BTC_ZEC"
    · subst hk
      have hv : v = .object val := by simpa [field, List.lookup_cons] using hpair
      subst hv
      simp only [PoloniexDecoder.rangeData, if_true, Json.asObject, hlast, Option.some_bind,
        Json.asString, hparse]
      exact PoloniexDecoder.rangeData_no_pair ops rest rate
        (field_eq_none_of_not_mem rest "BTC_ZEC" hkeys.1)
    · have hne : ("BTC_ZEC" == k) = false := by simpa using fun h' => hk h'.symm
      simp only [field, List.lookup_cons, hne] at hpair
      simp only [PoloniexDecoder.rangeData, hk, if_false]
      exact ih hkeys.2 hpair

theorem ExchangeRateDecoder.decode_wellFormed (ops : Float64Ops F) (d : ExchangeRateDecoder)
    (dat : Json F) (rate : F) (cache : Cache F) (rates : List (String × F))
    (h : WellFormed ops d dat rate) :
    ∃ msg, d.decode ops dat cache (.ok rates) = finish ops msg rates rate cache := by
  cases h with
  | kraken obj resultMap pairMap rateStr more rate hresult hpair hc hparse =>
    exact ⟨"Bitcoin-BitcoinCash price data not available",
      by simp [ExchangeRateDecoder.decode, KrakenDecoder.decode, Json.asObject,
      Json.asArray, Json.asString, hresult, hpair, hc, hparse]⟩
  | bitfinex obj rateStr rate hlast hparse =>
    exact ⟨"Bitcoin-BitcoinCash price data not available",
      by simp [ExchangeRateDecoder.decode, BitfinexDecoder.decode, Json.asObject,
      Json.asString, hlast, hparse]⟩
  | bittrex obj resultMap rate hresult hlast =>
    exact ⟨"Bitcoin-BitcoinCash price data not available",
      by simp [ExchangeRateDecoder.decode, BittrexDecoder.decode, Json.asObject,
      Json.asFloat64, hresult, hlast]⟩
  | poloniex data val rateStr rate hkeys hpair hlast hparse =>
    exact ⟨"Bitcoin-Zcash price data not available",
      by simp [ExchangeRateDecoder.decode, PoloniexDecoder.decode, Json.asObject,
      PoloniexDecoder.rangeData_pair ops data val rateStr rate ops.zero hkeys hpair hlast
        hparse]⟩
  | poloniexNoPair data hpair =>
    exact ⟨"Bitcoin-Zcash price data not available",
      by simp [ExchangeRateDecoder.decode, PoloniexDecoder.decode, Json.asObject,
      PoloniexDecoder.rangeData_no_pair ops data ops.zero hpair]⟩

theorem ExchangeRateDecoder.decode_zero (ops : Float64Ops F) (d : ExchangeRateDecoder)
    (dat : Json F) (rate : F) (cache : Cache F) (bp : Except String (List (String × F)))
    (h : WellFormed ops d dat rate) (hzero : ops.isZero rate = true) :
    ∃ e, d.decode ops dat cache bp = (Status.error e, cache) := by
  cases bp with
  | error e =>
    exact ⟨e, by cases d <;> simp [ExchangeRateDecoder.decode, KrakenDecoder.decode,
      BitfinexDecoder.decode, BittrexDecoder.decode, PoloniexDecoder.decode]⟩
  | ok rates =>
    obtain ⟨msg, hmsg⟩ := ExchangeRateDecoder.decode_wellFormed ops d dat rate cache rates h
    exact ⟨msg, by rw [hmsg]; simp [finish, hzero]⟩

theorem ExchangeRateProvider.fetch_zero (ops : Float64Ops F) (p : ExchangeRateProvider F)
    (rate : F) (cache : Cache F) (h : Yields ops p rate) (hzero : ops.isZero rate = true) :
    ∃ e, p.fetch ops cache = (Status.error e, cache) := by
  obtain ⟨dat, hresp, hwf⟩ := h
  unfold ExchangeRateProvider.fetch
  split
  · exact ⟨_, rfl⟩
  · simp only [hresp]
    exact ExchangeRateDecoder.decode_zero ops p.decoder dat rate cache p.bitcoinProvider hwf hzero

theorem ExchangeRateProvider.fetch_yields (ops : Float64Ops F) (p : ExchangeRateProvider F)
    (rate : F) (cache : Cache F) (rates : List (String × F)) (h : Yields ops p rate)
    (hurl : p.fetchUrl.length ≠ 0) (hrates : p.bitcoinProvider = .ok rates)
    (hrate : ops.isZero rate = false) :
    p.fetch ops cache = (Status.nil, writeRates ops rates rate cache) := by
  obtain ⟨dat, hresp, hwf⟩ := h
  obtain ⟨msg, hmsg⟩ := ExchangeRateDecoder.decode_wellFormed ops p.decoder dat rate cache rates hwf
  simp [ExchangeRateProvider.fetch, hurl, hresp, hrates, hmsg, finish, hrate]

/-- C6. A well-formed response whose rate is 0 makes each of the four decoders return an
error and leave the cache as it was; `fetchCurrentRates` then goes on to the next provider;
and when every provider answers with the rate 0, `fetchCurrentRates` has called all of them
and returns "All exchange rate API queries failed". -/
theorem zero_rate_is_a_failure (ops : Float64Ops F) (z : ZcashPriceFetcher F)
    (hall : ∀ p ∈ z.providers, ∃ rate, Yields ops p rate ∧ ops.isZero rate = true) :
    (∀ (d : ExchangeRateDecoder) (dat : Json F) (rate : F) (cache : Cache F)
        (bp : Except String (List (String × F))),
        WellFormed ops d dat rate → ops.isZero rate = true →
          ∃ e, d.decode ops dat cache bp = (Status.error e, cache))
      ∧ (∀ (p : ExchangeRateProvider F) (rest called : List (ExchangeRateProvider F))
          (cache : Cache F) (rate : F), Yields ops p rate → ops.isZero rate = true →
          fetchLoop ops (p :: rest) cache called = fetchLoop ops rest cache (called ++ [p]))
      ∧ ZcashPriceFetcher.fetchCurrentRates ops z
          = ⟨Status.error "All exchange rate API queries failed", z.cache, z.providers⟩ := by
  refine ⟨?_, ?_, ?_⟩
  · intro d dat rate cache bp hwf hzero
    exact ExchangeRateDecoder.decode_zero ops d dat rate cache bp hwf hzero
  · intro p rest called cache rate hy hzero
    obtain ⟨e, he⟩ := ExchangeRateProvider.fetch_zero ops p rate cache hy hzero
    exact fetchLoop_error_step ops p rest cache called e (by rw [he])
  · have hfail : ∀ p ∈ z.providers, ∃ e, (p.fetch ops z.cache).1 = Status.error e := by
      intro p hp
      obtain ⟨rate, hy, hzero⟩ := hall p hp
      obtain ⟨e, he⟩ := ExchangeRateProvider.fetch_zero ops p rate z.cache hy hzero
      exact ⟨e, by rw [he]⟩
    have := fetchLoop_skip_failed ops z.providers [] z.cache [] hfail
    simp only [List.append_nil, List.nil_append] at this
    unfold ZcashPriceFetcher.fetchCurrentRates
    rw [this]
    rfl

/-! ### The write loop -/

theorem writeRates_of_not_mem (ops : Float64Ops F) (rates : List (String × F)) (rate : F)
    (cache : Cache F) (k : String) (h : k ∉ rates.map Prod.fst) :
    writeRates ops rates rate cache k = cache k := by
  induction rates generalizing cache with
  | nil => rfl
  | cons e rest ih =>
    simp only [List.map_cons, List.mem_cons, not_or] at h
    simp only [writeRates, List.foldl_cons] at ih ⊢
    rw [ih _ h.2]
    simp [Cache.set, h.1]

theorem writeRates_of_mem (ops : Float64Ops F) (rates : List (String × F)) (rate : F)
    (cache : Cache F) (k : String) (v : F) (hkeys : (rates.map Prod.fst).Nodup)
    (h : (k, v) ∈ rates) :
    writeRates ops rates rate cache k = some (ops.mul v rate) := by
  induction rates generalizing cache with
  | nil => simp at h
  | cons e rest ih =>
    simp only [List.map_cons, List.nodup_cons] at hkeys
    rcases List.mem_cons.mp h with rfl | hmem
    · have := writeRates_of_not_mem ops rest rate
        (Cache.set cache k (ops.mul v rate)) k hkeys.1
      simp only [writeRates, List.foldl_cons] at this ⊢
      rw [this]
      simp [Cache.set]
    · have := ih (Cache.set cache e.1 (ops.mul e.2 rate)) hkeys.2 hmem
      simpa only [writeRates, List.foldl_cons] using this

end

/-- Witness of C1: the Kraken request fails, Bitfinex answers with the rate 2, and the
Bittrex provider, which would answer too, is not called. -/
theorem fetchCurrentRates_stops_at_first_success_witness :
    (ZcashPriceFetcher.fetchCurrentRates intOps
        ⟨usdCache, [krakenDown] ++ bitfinexTwo :: [bittrexThree]⟩
        = ⟨Status.nil, (bitfinexTwo.fetch intOps usdCache).2, [krakenDown] ++ [bitfinexTwo]⟩)
      ∧ (bitfinexTwo.fetch intOps usdCache).2 "USD" = some 200
      ∧ (bittrexThree.fetch intOps usdCache).1 = Status.nil :=
  ⟨(fetchCurrentRates_stops_at_first_success intOps [krakenDown] [bittrexThree] bitfinexTwo
      usdCache
      (fun q hq => ⟨"dial tcp: i/o timeout", by
        rw [List.mem_singleton] at hq
        subst hq
        decide⟩)
      (by decide)).1,
    by decide, by decide⟩

/-- Every provider of `allZero` receives a well-formed response whose rate is 0. -/
theorem allZero_yields_zero :
    ∀ p ∈ allZero, ∃ rate, Yields intOps p rate ∧ intOps.isZero rate = true := by
  intro p hp
  simp only [allZero, List.mem_cons, List.mem_singleton, List.not_mem_nil, or_false] at hp
  rcases hp with rfl | rfl | rfl | rfl
  · exact ⟨0, ⟨_, rfl, WellFormed.kraken _ _ _ "0" _ 0 rfl rfl rfl rfl⟩, rfl⟩
  · exact ⟨0, ⟨_, rfl, WellFormed.bitfinex _ "0" 0 rfl rfl⟩, rfl⟩
  · exact ⟨0, ⟨_, rfl, WellFormed.bittrex _ _ 0 rfl rfl⟩, rfl⟩
  · exact ⟨0, ⟨_, rfl, WellFormed.poloniex _ _ "0" 0 (by decide) rfl rfl rfl⟩, rfl⟩

/-- Witness of C6: the four configured providers all answer with the rate 0; all four are
called and the round fails, leaving the cache as it was. -/
theorem zero_rate_is_a_failure_witness :
    ZcashPriceFetcher.fetchCurrentRates intOps ⟨usdCache, allZero⟩
      = ⟨Status.error "All exchange rate API queries failed", usdCache, allZero⟩ :=
  (zero_rate_is_a_failure intOps ⟨usdCache, allZero⟩ allZero_yields_zero).2.2

/-- C8, as stated, fails. The cache holds 5 for `USD`, the bitcoin base rate for `USD` is
100, and Bitfinex answers with the rate 2: the round succeeds and leaves 200 for `USD`, which
is the base rate times 2 and not the prior cache value times 2. -/
theorem derived_entry_is_not_prior_value_times_rate :
    Yields intOps bitfinexTwo 2
      ∧ (ZcashPriceFetcher.fetchCurrentRates intOps ⟨usdCache, [bitfinexTwo]⟩).status
          = Status.nil
      ∧ usdCache "USD" = some 5
      ∧ (ZcashPriceFetcher.fetchCurrentRates intOps ⟨usdCache, [bitfinexTwo]⟩).cache "USD"
          = some 200
      ∧ (ZcashPriceFetcher.fetchCurrentRates intOps ⟨usdCache, [bitfinexTwo]⟩).cache "USD"
          ≠ (usdCache "USD").map (fun prior => intOps.mul prior 2) :=
  ⟨⟨_, rfl, WellFormed.bitfinex _ "2" 2 rfl rfl⟩, by decide, by decide, by decide, by decide⟩

/-- C8, amended. In a round where every provider before `p` fails and `p` receives a
well-formed response with a rate that is not 0, `fetchCurrentRates` returns nil and every
entry `(k, v)` of the bitcoin base rate table of `p` is in the cache as `v * rate`. -/
theorem successful_round_scales_base_rates {F : Type} (ops : Float64Ops F)
    (pre post : List (ExchangeRateProvider F)) (p : ExchangeRateProvider F) (cache : Cache F)
    (rates : List (String × F)) (rate : F)
    (hpre : ∀ q ∈ pre, ∃ e, (q.fetch ops cache).1 = Status.error e)
    (hurl : p.fetchUrl.length ≠ 0)
    (hyields : Yields ops p rate)
    (hrate : ops.isZero rate = false)
    (hrates : p.bitcoinProvider = .ok rates)
    (hkeys : (rates.map Prod.fst).Nodup) :
    (ZcashPriceFetcher.fetchCurrentRates ops ⟨cache, pre ++ p :: post⟩).status = Status.nil
      ∧ ∀ k v, (k, v) ∈ rates →
          (ZcashPriceFetcher.fetchCurrentRates ops ⟨cache, pre ++ p :: post⟩).cache k
            = some (ops.mul v rate) := by
  have hfetch := ExchangeRateProvider.fetch_yields ops p rate cache rates hyields hurl hrates
    hrate
  have hround : ZcashPriceFetcher.fetchCurrentRates ops ⟨cache, pre ++ p :: post⟩
      = ⟨Status.nil, writeRates ops rates rate cache, pre ++ [p]⟩ := by
    unfold ZcashPriceFetcher.fetchCurrentRates
    simp only
    rw [fetchLoop_skip_failed ops pre (p :: post) cache [] hpre,
      fetchLoop_nil_step ops p post cache ([] ++ pre) (by rw [hfetch]), hfetch]
    simp
  rw [hround]
  exact ⟨rfl, fun k v hkv => writeRates_of_mem ops rates rate cache k v hkeys hkv⟩

/-- Witness of C8 amended: Kraken is down and Bitfinex answers with the rate 2, so the cache
holds 100 * 2 for `USD` and 90 * 2 for `EUR`. -/
theorem successful_round_scales_base_rates_witness :
    (ZcashPriceFetcher.fetchCurrentRates intOps
        ⟨usdCache, [krakenDown] ++ bitfinexTwo :: [bittrexThree]⟩).status = Status.nil
      ∧ ∀ k v, (k, v) ∈ btcRates →
          (ZcashPriceFetcher.fetchCurrentRates intOps
            ⟨usdCache, [krakenDown] ++ bitfinexTwo :: [bittrexThree]⟩).cache k
            = some (intOps.mul v 2) :=
  successful_round_scales_base_rates intOps [krakenDown] [bittrexThree] bitfinexTwo usdCache
    btcRates 2
    (fun q hq => ⟨"dial tcp: i/o timeout", by
      rw [List.mem_singleton] at hq
      subst hq
      decide⟩)
    (by decide)
    ⟨_, rfl, WellFormed.bitfinex _ "2" 2 rfl rfl⟩
    rfl rfl (by decide)

/-- C10 fails on the code. `PoloniexDecoder.decode` panics on a top-level JSON array,
`KrakenDecoder.decode` panics on a ticker whose field `c` is the empty list, and the panic
ends `fetchCurrentRates`: the Bitfinex provider that follows, which would succeed, is never
called. -/
theorem decode_panics_on_unexpected_shape :
    PoloniexDecoder.decode intOps (Json.array []) usdCache (.ok btcRates)
        = (Status.panic "interface conversion: interface \x7b\x7d is not map[string]interface \x7b\x7d",
            usdCache)
      ∧ KrakenDecoder.decode intOps krakenEmptyC usdCache (.ok btcRates)
          = (Status.panic "runtime error: index out of range", usdCache)
      ∧ ZcashPriceFetcher.fetchCurrentRates intOps
          ⟨usdCache, [answering .KrakenDecoder "https://api.kraken.com/0/public/Ticker"
            krakenEmptyC, bitfinexTwo]⟩
          = ⟨Status.panic "runtime error: index out of range", usdCache,
              [answering .KrakenDecoder "https://api.kraken.com/0/public/Ticker"
                krakenEmptyC]⟩
      ∧ (bitfinexTwo.fetch intOps usdCache).1 = Status.nil :=
  ⟨rfl, rfl, rfl, by decide⟩

end Zcashd

namespace Ipfs

section
variable {σ : Type}

theorem returnSegment_of_two_le (lib : Lib σ) (pth : Path)
    (h : 2 ≤ (lib.Segments pth).length) : ∃ s, returnSegment lib pth = Ret.returned s none := by
  unfold returnSegment
  rcases hs : (lib.Segments pth)[1]? with _ | s
  · rw [List.getElem?_eq_none_iff] at hs
    omega
  · exact ⟨s, rfl⟩

theorem returnSegment_of_getElem (lib : Lib σ) (pth : Path) (s : String)
    (h : (lib.Segments pth)[1]? = some s) : returnSegment lib pth = Ret.returned s none := by
  simp [returnSegment, h]

theorem getFromDatastore_of_entry (lib : Lib σ) (store : σ) (p : PeerID) (data : String)
    (pth : Path) (hget : lib.Get store (lib.IpnsDsKey p) = .ok data)
    (hparse : lib.ParsePath data = .ok pth) : getFromDatastore lib store p = .ok pth := by
  simp [getFromDatastore, hget, hparse]

/-- C2. When every path the datastore read or the name system hands back for `p` has at
least two segments, `Resolve` returns a non-nil error exactly when both the network
resolution and the datastore read for `p` fail, and in every other case it returns a value
with a nil error. -/
theorem Resolve_error_iff_network_and_datastore_fail (lib : Lib σ) (n : IpfsNode σ)
    (p : PeerID) (timeout : Nat) (usecache : Bool)
    (hds : ∀ pth, getFromDatastore lib n.Datastore p = .ok pth →
      2 ≤ (lib.Segments pth).length)
    (hns : ∀ pth, resolve lib n p timeout = .ok pth → 2 ≤ (lib.Segments pth).length) :
    ((∃ s err, (Resolve lib n p timeout usecache).ret = Ret.returned s (some err))
        ↔ ((∃ e, resolve lib n p timeout = .error e)
            ∧ ∃ e, getFromDatastore lib n.Datastore p = .error e))
      ∧ (¬((∃ e, resolve lib n p timeout = .error e)
            ∧ ∃ e, getFromDatastore lib n.Datastore p = .error e) →
          ∃ s, (Resolve lib n p timeout usecache).ret = Ret.returned s none) := by
  rcases hr : resolve lib n p timeout with e | pth <;>
    rcases hg : getFromDatastore lib n.Datastore p with e' | pth'
  · cases usecache <;> simp [Resolve, Resolve.network, hr, hg]
  · obtain ⟨s, hs⟩ := returnSegment_of_two_le lib pth' (hds pth' hg)
    cases usecache <;> simp [Resolve, Resolve.network, hr, hg, hs]
  · obtain ⟨s, hs⟩ := returnSegment_of_two_le lib pth (hns pth hr)
    cases usecache <;> simp [Resolve, Resolve.network, hr, hg, hs]
  · obtain ⟨s, hs⟩ := returnSegment_of_two_le lib pth (hns pth hr)
    obtain ⟨s', hs'⟩ := returnSegment_of_two_le lib pth' (hds pth' hg)
    cases usecache <;> simp [Resolve, Resolve.network, hr, hg, hs, hs']

/-- C3. When the datastore entry of `p` parses to `pth`, whose second segment is `s`, and
the network resolution fails, `Resolve` without `usecache` returns `(s, nil)`: the stale
value and not the network error. The datastore is left as it was. -/
theorem Resolve_returns_stale_value_on_network_failure (lib : Lib σ) (n : IpfsNode σ)
    (p : PeerID) (timeout : Nat) (data : String) (pth : Path) (s : String) (e : Error)
    (hget : lib.Get n.Datastore (lib.IpnsDsKey p) = .ok data)
    (hparse : lib.ParsePath data = .ok pth)
    (hseg : (lib.Segments pth)[1]? = some s)
    (hnet : resolve lib n p timeout = .error e) :
    Resolve lib n p timeout false = ⟨Ret.returned s none, n.Datastore, false⟩ := by
  have hg := getFromDatastore_of_entry lib n.Datastore p data pth hget hparse
  simp [Resolve, Resolve.network, hnet, hg, returnSegment_of_getElem lib pth s hseg]

/-- C4. When the datastore entry of `p` parses to `pth`, whose second segment is `s`,
`Resolve` with `usecache` returns `(s, nil)` and starts the background refresh, whatever the
name system answers: the result is the same for every outcome of the network resolution. -/
theorem Resolve_cache_hit_ignores_network (lib : Lib σ) (store : σ) (p : PeerID)
    (timeout : Nat) (data : String) (pth : Path) (s : String)
    (hget : lib.Get store (lib.IpnsDsKey p) = .ok data)
    (hparse : lib.ParsePath data = .ok pth)
    (hseg : (lib.Segments pth)[1]? = some s) :
    ∀ namesys : String → Nat → Option Nat → Except Error Path,
      Resolve lib ⟨namesys, store⟩ p timeout true = ⟨Ret.returned s none, store, true⟩ := by
  intro namesys
  have hg := getFromDatastore_of_entry lib store p data pth hget hparse
  simp [Resolve, hg, returnSegment_of_getElem lib pth s hseg]

/-- C5. When the network resolution fails, `Resolve` leaves the datastore as it found it,
the background refresh leaves any datastore as it finds it, and so the datastore is unchanged
once the call and its goroutine are over. In general the only write, in the call and in the
background refresh, is `putToDatastore` with the path the network resolution returned. -/
theorem Resolve_writes_only_after_network_success (lib : Lib σ) (n : IpfsNode σ) (p : PeerID)
    (timeout : Nat) (usecache : Bool) (e : Error)
    (hnet : resolve lib n p timeout = .error e) :
    (Resolve lib n p timeout usecache).datastore = n.Datastore
      ∧ (∀ store, Resolve.background lib n p timeout store = store)
      ∧ (Resolve lib n p timeout usecache).settled lib n p timeout = n.Datastore
      ∧ (∀ (m : IpfsNode σ) (b : Bool),
          (Resolve lib m p timeout b).datastore = m.Datastore
            ∨ ∃ pth, resolve lib m p timeout = .ok pth
                ∧ (Resolve lib m p timeout b).datastore
                    = (putToDatastore lib m.Datastore p pth).2)
      ∧ (∀ (m : IpfsNode σ) (store : σ),
          Resolve.background lib m p timeout store = store
            ∨ ∃ pth, resolve lib m p timeout = .ok pth
                ∧ Resolve.background lib m p timeout store
                    = (putToDatastore lib store p pth).2) := by
  have hbg : ∀ store, Resolve.background lib n p timeout store = store := by
    intro store
    simp [Resolve.background, hnet]
  have hfg : (Resolve lib n p timeout usecache).datastore = n.Datastore := by
    rcases hg : getFromDatastore lib n.Datastore p with e' | pth' <;>
      cases usecache <;> simp [Resolve, Resolve.network, hnet, hg]
  refine ⟨hfg, hbg, ?_, ?_, ?_⟩
  · unfold Outcome.settled
    split
    · rw [hbg, hfg]
    · exact hfg
  · intro m b
    rcases hr : resolve lib m p timeout with e' | pth <;>
      rcases hg : getFromDatastore lib m.Datastore p with e'' | pth' <;>
      cases b <;> simp [Resolve, Resolve.network, hr, hg]
  · intro m store
    rcases hr : resolve lib m p timeout with e' | pth <;> simp [Resolve.background, hr]

/-- C9, amended. When the network resolution fails with any error `e` and the datastore
read for `p` misses (`Get` reports `ds.ErrNotFound`), `Resolve` returns the empty string with
`namesys.ErrResolveFailed`, the error `getFromDatastore` reports for a miss. -/
theorem Resolve_miss_returns_ErrResolveFailed (lib : Lib σ) (n : IpfsNode σ) (p : PeerID)
    (timeout : Nat) (usecache : Bool) (e : Error)
    (hnet : resolve lib n p timeout = .error e)
    (hmiss : lib.Get n.Datastore (lib.IpnsDsKey p) = .error Error.ErrNotFound) :
    (Resolve lib n p timeout usecache).ret = Ret.returned "" (some Error.ErrResolveFailed) := by
  have hg : getFromDatastore lib n.Datastore p = .error Error.ErrResolveFailed := by
    simp [getFromDatastore, hmiss]
  cases usecache <;> simp [Resolve, Resolve.network, hnet, hg]

end

/-- Witness of C2: the name system resolves the name and the datastore holds a record for
the peer, both with two segments, so not both fail and `Resolve` returns a value with a nil
error. -/
theorem Resolve_error_iff_network_and_datastore_fail_witness :
    (∀ pth, getFromDatastore listLib warmStore "QmPeer" = .ok pth →
        2 ≤ (listLib.Segments pth).length)
      ∧ (∀ pth, resolve listLib ⟨online, warmStore⟩ "QmPeer" 5 = .ok pth →
        2 ≤ (listLib.Segments pth).length)
      ∧ ∃ s, (Resolve listLib ⟨online, warmStore⟩ "QmPeer" 5 true).ret = Ret.returned s none :=
  have hds : ∀ pth, getFromDatastore listLib warmStore "QmPeer" = .ok pth →
      2 ≤ (listLib.Segments pth).length := by
    intro pth h
    have h' : getFromDatastore listLib warmStore "QmPeer" = .ok "/ipfs/zb2old" := rfl
    rw [h'] at h
    injection h with h
    subst h
    decide
  have hns : ∀ pth, resolve listLib ⟨online, warmStore⟩ "QmPeer" 5 = .ok pth →
      2 ≤ (listLib.Segments pth).length := by
    intro pth h
    have h' : resolve listLib ⟨online, warmStore⟩ "QmPeer" 5 = .ok "/ipfs/zb2new" := rfl
    rw [h'] at h
    injection h with h
    subst h
    decide
  ⟨hds, hns,
    (Resolve_error_iff_network_and_datastore_fail listLib ⟨online, warmStore⟩ "QmPeer" 5 true
      hds hns).2 (fun h => by
        obtain ⟨⟨e, he⟩, _⟩ := h
        have h' : resolve listLib ⟨online, warmStore⟩ "QmPeer" 5 = .ok "/ipfs/zb2new" := rfl
        rw [h'] at he
        cases he)⟩

/-- Witness of C3: the name system is unreachable and the datastore holds `/ipfs/zb2old`
for the peer: `Resolve` returns `zb2old` with a nil error. -/
theorem Resolve_returns_stale_value_on_network_failure_witness :
    Resolve listLib ⟨offline, warmStore⟩ "QmPeer" 5 false
      = ⟨Ret.returned "zb2old" none, warmStore, false⟩ :=
  Resolve_returns_stale_value_on_network_failure listLib ⟨offline, warmStore⟩ "QmPeer" 5
    "/ipfs/zb2old" "/ipfs/zb2old" "zb2old" (.other "context deadline exceeded")
    rfl rfl (by decide) rfl

/-- Witness of C4: with `/ipfs/zb2old` in the datastore, `Resolve` with `usecache` returns
`zb2old` whether the name system is unreachable or resolves the name to a newer record. -/
theorem Resolve_cache_hit_ignores_network_witness :
    Resolve listLib ⟨offline, warmStore⟩ "QmPeer" 5 true
        = ⟨Ret.returned "zb2old" none, warmStore, true⟩
      ∧ Resolve listLib ⟨online, warmStore⟩ "QmPeer" 5 true
        = ⟨Ret.returned "zb2old" none, warmStore, true⟩ :=
  ⟨Resolve_cache_hit_ignores_network listLib warmStore "QmPeer" 5 "/ipfs/zb2old"
      "/ipfs/zb2old" "zb2old" rfl rfl (by decide) offline,
    Resolve_cache_hit_ignores_network listLib warmStore "QmPeer" 5 "/ipfs/zb2old"
      "/ipfs/zb2old" "zb2old" rfl rfl (by decide) online⟩

/-- Witness of C5: the name system is unreachable; after the call with `usecache`, and after
the background refresh it started, the datastore is the one the call found. -/
theorem Resolve_writes_only_after_network_success_witness :
    (Resolve listLib ⟨offline, warmStore⟩ "QmPeer" 5 true).spawned = true
      ∧ (Resolve listLib ⟨offline, warmStore⟩ "QmPeer" 5 true).settled listLib
          ⟨offline, warmStore⟩ "QmPeer" 5 = warmStore :=
  ⟨by decide,
    (Resolve_writes_only_after_network_success listLib ⟨offline, warmStore⟩ "QmPeer" 5 true
      (.other "context deadline exceeded") rfl).2.2.1⟩

/-- C9, as stated, fails. The network resolution fails with "context deadline exceeded" and
the datastore has no entry for the peer: `Resolve` returns `namesys.ErrResolveFailed`, which
is not the network failure. -/
theorem Resolve_miss_does_not_return_network_error :
    resolve listLib ⟨offline, []⟩ "QmPeer" 5 = .error (.other "context deadline exceeded")
      ∧ listLib.Get [] (listLib.IpnsDsKey "QmPeer") = .error Error.ErrNotFound
      ∧ (Resolve listLib ⟨offline, []⟩ "QmPeer" 5 false).ret
          = Ret.returned "" (some Error.ErrResolveFailed)
      ∧ (Resolve listLib ⟨offline, []⟩ "QmPeer" 5 false).ret
          ≠ Ret.returned "" (some (.other "context deadline exceeded")) :=
  ⟨rfl, rfl, by decide, by decide⟩

/-- Witness of C9 amended: an unreachable name system and an empty datastore. -/
theorem Resolve_miss_returns_ErrResolveFailed_witness :
    (Resolve listLib ⟨offline, []⟩ "QmPeer" 5 true).ret
      = Ret.returned "" (some Error.ErrResolveFailed) :=
  Resolve_miss_returns_ErrResolveFailed listLib ⟨offline, []⟩ "QmPeer" 5 true
    (.other "context deadline exceeded") rfl rfl

end Ipfs

namespace Zcashd

section
variable {F : Type}

/-! ### Reads of the fetcher -/

theorem fetchLoop_all_failed (ops : Float64Ops F) (ps : List (ExchangeRateProvider F))
    (cache : Cache F) (hall : ∀ p ∈ ps, ∃ e, (p.fetch ops cache).1 = Status.error e) :
    fetchLoop ops ps cache []
      = ⟨Status.error "All exchange rate API queries failed", cache, ps⟩ := by
  have := fetchLoop_skip_failed ops ps [] cache [] hall
  simp only [List.append_nil, List.nil_append] at this
  rw [this]
  rfl

theorem fetchLoop_error_cache (ops : Float64Ops F) (ps : List (ExchangeRateProvider F))
    (cache : Cache F) (called : List (ExchangeRateProvider F)) (e : String)
    (h : (fetchLoop ops ps cache called).status = Status.error e) :
    (fetchLoop ops ps cache called).cache = cache := by
  induction ps generalizing called with
  | nil => rfl
  | cons p rest ih =>
    rcases hst : (p.fetch ops cache).1 with _ | e' | msg
    · rw [fetchLoop_nil_step ops p rest cache called hst] at h
      exact absurd h (by simp)
    · rw [fetchLoop_error_step ops p rest cache called e' hst] at h ⊢
      exact ih (called ++ [p]) h
    · rw [fetchLoop_panic_step ops p rest cache called msg hst] at h
      exact absurd h (by simp)

theorem GetLatestRate_of_returned (ops : Float64Ops F) (z : ZcashPriceFetcher F) (k : String)
    (hret : ∀ msg, (z.fetchCurrentRates ops).status ≠ Status.panic msg) :
    z.GetLatestRate ops k
      = ⟨(ZcashPriceFetcher.GetExchangeRate ops
            ⟨(z.fetchCurrentRates ops).cache, z.providers⟩ k).ret,
          (z.fetchCurrentRates ops).cache, (z.fetchCurrentRates ops).called⟩ := by
  unfold ZcashPriceFetcher.GetLatestRate ZcashPriceFetcher.GetExchangeRate
  rcases hround : z.fetchCurrentRates ops with ⟨st, cache, called⟩
  rw [hround] at hret
  cases st with
  | nil => cases hc : cache k <;> simp [hc]
  | error e => cases hc : cache k <;> simp [hc]
  | panic msg => exact absurd rfl (hret msg)

/-- C11. `GetExchangeRate(k)` returns 0 with the error "Currency not tracked" when `k` is
absent from the cache and the cached value with a nil error when it is present, so it returns
an error exactly when `k` is absent; it leaves the cache as it was and calls no provider. -/
theorem GetExchangeRate_not_tracked_iff_absent (ops : Float64Ops F) (z : ZcashPriceFetcher F)
    (k : String) :
    (z.cache k = none →
        (z.GetExchangeRate ops k).ret
          = RateRet.returned ops.zero (some "Currency not tracked"))
      ∧ (∀ v, z.cache k = some v → (z.GetExchangeRate ops k).ret = RateRet.returned v none)
      ∧ ((∃ price e, (z.GetExchangeRate ops k).ret = RateRet.returned price (some e))
          ↔ z.cache k = none)
      ∧ (z.GetExchangeRate ops k).cache = z.cache
      ∧ (z.GetExchangeRate ops k).called = [] := by
  unfold ZcashPriceFetcher.GetExchangeRate
  cases hc : z.cache k <;> simp

/-- Outside the rounds that panic: when the call of `fetchCurrentRates` returns,
`GetLatestRate(k)` returns what
`GetExchangeRate(k)` returns on the cache that call left, whether it returned nil or an
error; and when every provider fails, `GetLatestRate(k)` returns what `GetExchangeRate(k)`
returns on the cache as it was: the cached value with a nil error, or "Currency not
tracked". -/
theorem GetLatestRate_is_fetch_then_read (ops : Float64Ops F) (z : ZcashPriceFetcher F)
    (k : String) (hret : ∀ msg, (z.fetchCurrentRates ops).status ≠ Status.panic msg) :
    (z.GetLatestRate ops k).ret
        = (ZcashPriceFetcher.GetExchangeRate ops
            ⟨(z.fetchCurrentRates ops).cache, z.providers⟩ k).ret
      ∧ (z.GetLatestRate ops k).cache = (z.fetchCurrentRates ops).cache
      ∧ (z.GetLatestRate ops k).called = (z.fetchCurrentRates ops).called
      ∧ ((∀ p ∈ z.providers, ∃ e, (p.fetch ops z.cache).1 = Status.error e) →
          (z.GetLatestRate ops k).ret = (z.GetExchangeRate ops k).ret) := by
  have h := GetLatestRate_of_returned ops z k hret
  refine ⟨by rw [h], by rw [h], by rw [h], ?_⟩
  intro hall
  rw [h]
  have hround := fetchLoop_all_failed ops z.providers z.cache hall
  unfold ZcashPriceFetcher.fetchCurrentRates
  rw [hround]

/-- C13. A decoder that returns a non-nil error leaves the cache map it was given as it was,
and a round of `fetchCurrentRates` that returns an error leaves the whole cache as it was
before the round, so every entry is still there with its value. -/
theorem failed_round_leaves_cache (ops : Float64Ops F) (z : ZcashPriceFetcher F) (e : String)
    (hround : (z.fetchCurrentRates ops).status = Status.error e) :
    (z.fetchCurrentRates ops).cache = z.cache
      ∧ (∀ k v, z.cache k = some v → (z.fetchCurrentRates ops).cache k = some v)
      ∧ (∀ (d : ExchangeRateDecoder) (dat : Json F) (cache : Cache F)
          (bp : Except String (List (String × F))) (e' : String),
          (d.decode ops dat cache bp).1 = Status.error e' →
            (d.decode ops dat cache bp).2 = cache) := by
  have hcache : (z.fetchCurrentRates ops).cache = z.cache :=
    fetchLoop_error_cache ops z.providers z.cache [] e hround
  refine ⟨hcache, ?_, ?_⟩
  · intro k v hk
    rw [hcache, hk]
  · intro d dat cache bp e' he
    exact decode_cache_of_not_nil ops d dat cache bp (by rw [he]; exact Status.noConfusion)

end

/-- An instance: the only provider is down and the cache holds 5 for `USD`:
`GetLatestRate` returns 5 with a nil error. -/
theorem GetLatestRate_is_fetch_then_read_witness :
    (ZcashPriceFetcher.GetLatestRate intOps ⟨usdCache, [krakenDown]⟩ "USD").ret
        = (ZcashPriceFetcher.GetExchangeRate intOps ⟨usdCache, [krakenDown]⟩ "USD").ret
      ∧ (ZcashPriceFetcher.GetExchangeRate intOps ⟨usdCache, [krakenDown]⟩ "USD").ret
        = RateRet.returned 5 none :=
  ⟨(GetLatestRate_is_fetch_then_read intOps ⟨usdCache, [krakenDown]⟩ "USD"
      (fun msg h => by
        have h' : (ZcashPriceFetcher.fetchCurrentRates intOps
            ⟨usdCache, [krakenDown]⟩).status
            = Status.error "All exchange rate API queries failed" := by decide
        rw [h'] at h
        cases h)).2.2.2
      (fun q hq => ⟨"dial tcp: i/o timeout", by
        rw [List.mem_singleton] at hq
        subst hq
        decide⟩),
    rfl⟩

/-- Witness of C13: the four providers all answer with the rate 0, the round fails, and the
cache still holds 5 for `USD`. -/
theorem failed_round_leaves_cache_witness :
    (ZcashPriceFetcher.fetchCurrentRates intOps ⟨usdCache, allZero⟩).cache = usdCache
      ∧ (ZcashPriceFetcher.fetchCurrentRates intOps ⟨usdCache, allZero⟩).cache "USD"
        = some 5 :=
  ⟨(failed_round_leaves_cache intOps ⟨usdCache, allZero⟩
      "All exchange rate API queries failed" (by decide)).1,
    by decide⟩

end Zcashd

namespace Zcashd

section
variable {F : Type}

/-! ### What a successful decode writes -/

theorem finish_written (ops : Float64Ops F) (msg : String) (rates : List (String × F))
    (rate : F) (cache : Cache F) (h : (finish ops msg rates rate cache).1 = Status.nil) :
    ops.isZero rate = false
      ∧ (finish ops msg rates rate cache).2 = writeRates ops rates rate cache := by
  unfold finish at h ⊢
  split <;> simp_all

theorem kraken_decode_written (ops : Float64Ops F) (dat : Json F) (cache : Cache F)
    (bp : Except String (List (String × F)))
    (h : (KrakenDecoder.decode ops dat cache bp).1 = Status.nil) :
    ∃ rates rate, bp = .ok rates ∧ ops.isZero rate = false
      ∧ (KrakenDecoder.decode ops dat cache bp).2 = writeRates ops rates rate cache := by
  revert h
  unfold KrakenDecoder.decode
  repeat' split
  all_goals first
    | exact fun h => absurd h (by simp)
    | exact fun h => ⟨_, _, rfl, finish_written ops _ _ _ _ h⟩

theorem bitfinex_decode_written (ops : Float64Ops F) (dat : Json F) (cache : Cache F)
    (bp : Except String (List (String × F)))
    (h : (BitfinexDecoder.decode ops dat cache bp).1 = Status.nil) :
    ∃ rates rate, bp = .ok rates ∧ ops.isZero rate = false
      ∧ (BitfinexDecoder.decode ops dat cache bp).2 = writeRates ops rates rate cache := by
  revert h
  unfold BitfinexDecoder.decode
  repeat' split
  all_goals first
    | exact fun h => absurd h (by simp)
    | exact fun h => ⟨_, _, rfl, finish_written ops _ _ _ _ h⟩

theorem bittrex_decode_written (ops : Float64Ops F) (dat : Json F) (cache : Cache F)
    (bp : Except String (List (String × F)))
    (h : (BittrexDecoder.decode ops dat cache bp).1 = Status.nil) :
    ∃ rates rate, bp = .ok rates ∧ ops.isZero rate = false
      ∧ (BittrexDecoder.decode ops dat cache bp).2 = writeRates ops rates rate cache := by
  revert h
  unfold BittrexDecoder.decode
  repeat' split
  all_goals first
    | exact fun h => absurd h (by simp)
    | exact fun h => ⟨_, _, rfl, finish_written ops _ _ _ _ h⟩

theorem poloniex_decode_written (ops : Float64Ops F) (dat : Json F) (cache : Cache F)
    (bp : Except String (List (String × F)))
    (h : (PoloniexDecoder.decode ops dat cache bp).1 = Status.nil) :
    ∃ rates rate, bp = .ok rates ∧ ops.isZero rate = false
      ∧ (PoloniexDecoder.decode ops dat cache bp).2 = writeRates ops rates rate cache := by
  revert h
  unfold PoloniexDecoder.decode
  repeat' split
  all_goals first
    | exact fun h => absurd h (by simp)
    | exact fun h => ⟨_, _, rfl, finish_written ops _ _ _ _ h⟩

theorem decode_written (ops : Float64Ops F) (d : ExchangeRateDecoder) (dat : Json F)
    (cache : Cache F) (bp : Except String (List (String × F)))
    (h : (d.decode ops dat cache bp).1 = Status.nil) :
    ∃ rates rate, bp = .ok rates ∧ ops.isZero rate = false
      ∧ (d.decode ops dat cache bp).2 = writeRates ops rates rate cache := by
  cases d
  · exact kraken_decode_written ops dat cache bp h
  · exact poloniex_decode_written ops dat cache bp h
  · exact bitfinex_decode_written ops dat cache bp h
  · exact bittrex_decode_written ops dat cache bp h

theorem writeRates_keeps_keys (ops : Float64Ops F) (rates : List (String × F)) (rate : F)
    (cache : Cache F) (k : String) (h : (cache k).isSome = true) :
    (writeRates ops rates rate cache k).isSome = true := by
  induction rates generalizing cache with
  | nil => exact h
  | cons e rest ih =>
    simp only [writeRates, List.foldl_cons] at ih ⊢
    apply ih
    unfold Cache.set
    split
    · rfl
    · exact h

theorem decode_keeps_keys (ops : Float64Ops F) (d : ExchangeRateDecoder) (dat : Json F)
    (cache : Cache F) (bp : Except String (List (String × F))) (k : String)
    (h : (cache k).isSome = true) : ((d.decode ops dat cache bp).2 k).isSome = true := by
  by_cases hst : (d.decode ops dat cache bp).1 = Status.nil
  · obtain ⟨rates, rate, _, _, hw⟩ := decode_written ops d dat cache bp hst
    rw [hw]
    exact writeRates_keeps_keys ops rates rate cache k h
  · rw [decode_cache_of_not_nil ops d dat cache bp hst]
    exact h

theorem fetch_keeps_keys (ops : Float64Ops F) (p : ExchangeRateProvider F) (cache : Cache F)
    (k : String) (h : (cache k).isSome = true) : ((p.fetch ops cache).2 k).isSome = true := by
  unfold ExchangeRateProvider.fetch
  repeat' split
  all_goals first
    | exact h
    | exact decode_keeps_keys ops _ _ cache _ k h

theorem fetchLoop_keeps_keys (ops : Float64Ops F) (ps : List (ExchangeRateProvider F))
    (cache : Cache F) (called : List (ExchangeRateProvider F)) (k : String)
    (h : (cache k).isSome = true) : ((fetchLoop ops ps cache called).cache k).isSome = true := by
  induction ps generalizing called with
  | nil => exact h
  | cons p rest ih =>
    rcases hst : (p.fetch ops cache).1 with _ | e | msg
    · rw [fetchLoop_nil_step ops p rest cache called hst]
      exact fetch_keeps_keys ops p cache k h
    · rw [fetchLoop_error_step ops p rest cache called e hst]
      exact ih (called ++ [p])
    · rw [fetchLoop_panic_step ops p rest cache called msg hst]
      exact fetch_keeps_keys ops p cache k h

theorem GetLatestRate_cache (ops : Float64Ops F) (z : ZcashPriceFetcher F) (c : String) :
    (z.GetLatestRate ops c).cache = (z.fetchCurrentRates ops).cache := by
  unfold ZcashPriceFetcher.GetLatestRate
  rcases z.fetchCurrentRates ops with ⟨st, cache, called⟩
  cases st <;> simp only <;> cases cache c <;> rfl

theorem GetExchangeRate_cache (ops : Float64Ops F) (z : ZcashPriceFetcher F) (c : String) :
    (z.GetExchangeRate ops c).cache = z.cache := by
  unfold ZcashPriceFetcher.GetExchangeRate
  cases z.cache c <;> rfl

/-- C17. A table `rates` of bitcoin base rates is a map: its keys are distinct. When a
decoder returns nil on it, there is a rate that is not 0 such that the cache it leaves holds
`v * rate` for every entry `(k, v)` of the table and the prior value for every key that is
not in the table; for a well-formed response that rate is the one the response carries. No
operation of the fetcher removes a key from the cache. -/
theorem decode_success_writes_scaled_table (ops : Float64Ops F) (d : ExchangeRateDecoder)
    (dat : Json F) (cache : Cache F) (rates : List (String × F))
    (hkeys : (rates.map Prod.fst).Nodup)
    (hnil : (d.decode ops dat cache (.ok rates)).1 = Status.nil) :
    (∃ rate, ops.isZero rate = false
        ∧ (∀ k v, (k, v) ∈ rates →
            (d.decode ops dat cache (.ok rates)).2 k = some (ops.mul v rate))
        ∧ (∀ k, k ∉ rates.map Prod.fst → (d.decode ops dat cache (.ok rates)).2 k = cache k))
      ∧ (∀ rate, WellFormed ops d dat rate →
          ∀ k v, (k, v) ∈ rates →
            (d.decode ops dat cache (.ok rates)).2 k = some (ops.mul v rate))
      ∧ (∀ (z : ZcashPriceFetcher F) (c k : String), (z.cache k).isSome = true →
          ((z.fetchCurrentRates ops).cache k).isSome = true
            ∧ ((z.GetLatestRate ops c).cache k).isSome = true
            ∧ ((z.GetExchangeRate ops c).cache k).isSome = true
            ∧ (z.GetAllRates.1 k).isSome = true) := by
  refine ⟨?_, ?_, ?_⟩
  · obtain ⟨rates', rate, hbp, hrate, hw⟩ := decode_written ops d dat cache (.ok rates) hnil
    injection hbp with hbp
    subst hbp
    refine ⟨rate, hrate, ?_, ?_⟩
    · intro k v hkv
      rw [hw]
      exact writeRates_of_mem ops rates rate cache k v hkeys hkv
    · intro k hk
      rw [hw]
      exact writeRates_of_not_mem ops rates rate cache k hk
  · intro rate hwf k v hkv
    obtain ⟨msg, hmsg⟩ := ExchangeRateDecoder.decode_wellFormed ops d dat rate cache rates hwf
    rw [hmsg] at hnil ⊢
    rw [(finish_written ops msg rates rate cache hnil).2]
    exact writeRates_of_mem ops rates rate cache k v hkeys hkv
  · intro z c k hk
    have hround : ((z.fetchCurrentRates ops).cache k).isSome = true :=
      fetchLoop_keeps_keys ops z.providers z.cache [] k hk
    refine ⟨hround, ?_, ?_, hk⟩
    · rw [GetLatestRate_cache]
      exact hround
    · rw [GetExchangeRate_cache]
      exact hk

/-- C18. `BittrexDecoder.decode` returns nil exactly when the bitcoin base rates are
available, the response is an object whose field `result` is an object whose field `Last` is
a number, and `Last == 0` is false; nothing else is checked, so a ticker whose last price is
`-3` is accepted and scales the whole table by `-3`. -/
theorem BittrexDecoder_decode_nil_iff (ops : Float64Ops F) (dat : Json F) (cache : Cache F)
    (bp : Except String (List (String × F))) :
    ((BittrexDecoder.decode ops dat cache bp).1 = Status.nil
        ↔ ∃ rates obj resultMap rate, bp = .ok rates ∧ dat = .object obj
            ∧ field obj "result" = some (.object resultMap)
            ∧ field resultMap "Last" = some (.number rate)
            ∧ ops.isZero rate = false)
      ∧ (BittrexDecoder.decode intOps bittrexNegative usdCache (.ok btcRates)).1 = Status.nil
      ∧ (BittrexDecoder.decode intOps bittrexNegative usdCache (.ok btcRates)).2 "USD"
          = some (-300) := by
  refine ⟨⟨?_, ?_⟩, by decide, by decide⟩
  · unfold BittrexDecoder.decode
    cases bp with
    | error e => intro h; exact absurd h (by simp)
    | ok rates =>
      cases dat with
      | object obj =>
        simp only [Json.asObject]
        rcases hres : field obj "result" with _ | result
        · intro h; exact absurd h (by simp)
        · cases result with
          | object resultMap =>
            simp only
            rcases hlast : field resultMap "Last" with _ | exRate
            · intro h; exact absurd h (by simp)
            · cases exRate with
              | number rate =>
                simp only [Json.asFloat64]
                intro h
                exact ⟨rates, obj, resultMap, rate, rfl, rfl, hres, hlast,
                  (finish_written ops _ rates rate cache h).1⟩
              | _ => intro h; exact absurd h (by simp [Json.asFloat64])
          | _ => intro h; exact absurd h (by simp [Json.asObject])
      | _ => intro h; exact absurd h (by simp [Json.asObject])
  · rintro ⟨rates, obj, resultMap, rate, rfl, rfl, hres, hlast, hrate⟩
    simp [BittrexDecoder.decode, Json.asObject, Json.asFloat64, hres, hlast, finish, hrate]

/-- C19. On a response whose `result` object has no field `BCHXBT`, `KrakenDecoder.decode`
returns an error and leaves the cache as it was; with the base rates available the error is
"KrakenDecoder: field `BCHXBT` not found". So the first provider `NewZcashPriceFetcher`
configures, which asks Kraken for the pair `ZECXBT`, fails on every such response. -/
theorem KrakenDecoder_rejects_result_without_BCHXBT (ops : Float64Ops F)
    (obj resultMap : List (String × Json F)) (cache : Cache F)
    (hresult : field obj "result" = some (.object resultMap))
    (hpair : field resultMap "BCHXBT" = none) :
    (∀ bp, ∃ e, KrakenDecoder.decode ops (.object obj) cache bp = (Status.error e, cache))
      ∧ (∀ rates, KrakenDecoder.decode ops (.object obj) cache (.ok rates)
          = (Status.error "KrakenDecoder: field `BCHXBT` not found", cache))
      ∧ (∀ client bp,
          client "https://api.kraken.com/0/public/Ticker?pair=ZECXBT"
              = .ok (.ok (.object obj)) →
          ∃ p rest e, (NewZcashPriceFetcher client bp).fetcher.providers = p :: rest
            ∧ p.decoder = ExchangeRateDecoder.KrakenDecoder
            ∧ p.fetch ops cache = (Status.error e, cache)) := by
  have hok : ∀ rates, KrakenDecoder.decode ops (.object obj) cache (.ok rates)
      = (Status.error "KrakenDecoder: field `BCHXBT` not found", cache) := by
    intro rates
    simp [KrakenDecoder.decode, Json.asObject, hresult, hpair]
  have hall : ∀ bp, ∃ e,
      KrakenDecoder.decode ops (.object obj) cache bp = (Status.error e, cache) := by
    intro bp
    cases bp with
    | error e => exact ⟨e, by simp [KrakenDecoder.decode]⟩
    | ok rates => exact ⟨_, hok rates⟩
  refine ⟨hall, hok, ?_⟩
  intro client bp hclient
  obtain ⟨e, he⟩ := hall bp
  refine ⟨_, _, e, rfl, rfl, ?_⟩
  have hurl : ¬ ("https://api.kraken.com/0/public/Ticker?pair=ZECXBT".length = 0) := by decide
  simp only [ExchangeRateProvider.fetch, hurl, if_false, hclient,
    ExchangeRateDecoder.decode]
  exact he

/-- C16, amended. `NewZcashPriceFetcher` returns a fetcher with an empty cache and the four
providers, the first attempt still to be made by the goroutine it started: on the returned
fetcher `GetExchangeRate` answers "Currency not tracked" for every currency and `GetAllRates`
has no entry, until the goroutine has run its first `fetchCurrentRates`, which leaves the
cache of that round. -/
theorem NewZcashPriceFetcher_returns_before_first_attempt (ops : Float64Ops F)
    (client : String → Except String (Except String (Json F)))
    (bp : Except String (List (String × F))) (k : String) :
    (NewZcashPriceFetcher client bp).runPending = true
      ∧ ((NewZcashPriceFetcher client bp).fetcher.GetExchangeRate ops k).ret
          = RateRet.returned ops.zero (some "Currency not tracked")
      ∧ (NewZcashPriceFetcher client bp).fetcher.GetAllRates.1 k = none
      ∧ ((NewZcashPriceFetcher client bp).runFirst ops).runPending = false
      ∧ ((NewZcashPriceFetcher client bp).runFirst ops).fetcher.cache
          = ((NewZcashPriceFetcher client bp).fetcher.fetchCurrentRates ops).cache :=
  ⟨rfl, rfl, rfl, rfl, rfl⟩

end

/-- Witness of C17: Bitfinex answers with the rate 2 on a cache that holds 5 for `USD`; the
cache then holds 100 * 2 for `USD`, 90 * 2 for `EUR`, and nothing for `GBP` as before. -/
theorem decode_success_writes_scaled_table_witness :
    (∀ k v, (k, v) ∈ btcRates →
        (ExchangeRateDecoder.decode intOps .BitfinexDecoder
          (.object [("last_price", .string "2")]) usdCache (.ok btcRates)).2 k
          = some (intOps.mul v 2))
      ∧ (ExchangeRateDecoder.decode intOps .BitfinexDecoder
          (.object [("last_price", .string "2")]) usdCache (.ok btcRates)).2 "GBP"
          = usdCache "GBP" :=
  ⟨(decode_success_writes_scaled_table intOps .BitfinexDecoder
      (.object [("last_price", .string "2")]) usdCache btcRates (by decide) (by decide)).2.1 2
      (WellFormed.bitfinex _ "2" 2 rfl rfl),
    by decide⟩

/-- Witness of C19: the Kraken ticker for `ZECXBT` carries the entry `XZECXXBT` only, and
the Kraken provider of the configured chain fails on it. -/
theorem KrakenDecoder_rejects_result_without_BCHXBT_witness :
    KrakenDecoder.decode intOps krakenZecTicker usdCache (.ok btcRates)
      = (Status.error "KrakenDecoder: field `BCHXBT` not found", usdCache) :=
  (KrakenDecoder_rejects_result_without_BCHXBT intOps
    [("error", .array []),
      ("result", .object [("XZECXXBT", .object [("c", .array [.string "2", .string "1"])])])]
    [("XZECXXBT", .object [("c", .array [.string "2", .string "1"])])]
    usdCache rfl rfl).2.1 btcRates

/-- C16, as stated, fails. Only Bitfinex answers, with the rate 2. On the fetcher
`NewZcashPriceFetcher` returns, the first attempt is still pending and `GetExchangeRate`
for `USD` answers "Currency not tracked" from the empty cache; once the goroutine has made
that attempt the same read returns 200. -/
theorem read_can_precede_first_attempt :
    (NewZcashPriceFetcher bitfinexOnly (.ok btcRates)).runPending = true
      ∧ (ZcashPriceFetcher.GetExchangeRate intOps
          (NewZcashPriceFetcher bitfinexOnly (.ok btcRates)).fetcher "USD").ret
          = RateRet.returned 0 (some "Currency not tracked")
      ∧ (ZcashPriceFetcher.GetExchangeRate intOps
          ((NewZcashPriceFetcher bitfinexOnly (.ok btcRates)).runFirst intOps).fetcher
            "USD").ret
          = RateRet.returned 200 none :=
  ⟨rfl, rfl, rfl⟩

end Zcashd

namespace Ipfs

section
variable {σ : Type}

/-- C14. When the network resolution in the foreground succeeds with `pth`, whose second
segment is `s` (the call is without `usecache`, or the datastore read fails), `Resolve`
returns `(s, nil)` and leaves the datastore `putToDatastore` left, whatever `Put` does and
whatever error it reports: a failed write does not turn the result into an error. -/
theorem Resolve_success_survives_write_failure (lib : Lib σ) (n : IpfsNode σ) (p : PeerID)
    (timeout : Nat) (usecache : Bool) (pth : Path) (s : String)
    (hnet : resolve lib n p timeout = .ok pth)
    (hseg : (lib.Segments pth)[1]? = some s)
    (hfg : usecache = false ∨ ∃ e, getFromDatastore lib n.Datastore p = .error e) :
    Resolve lib n p timeout usecache
        = ⟨Ret.returned s none, (putToDatastore lib n.Datastore p pth).2, false⟩
      ∧ ∀ put : σ → String → String → Option Error × σ,
          (Resolve { lib with Put := put } n p timeout usecache).ret = Ret.returned s none := by
  have key : ∀ l : Lib σ, resolve l n p timeout = .ok pth →
      (l.Segments pth)[1]? = some s →
      (usecache = false ∨ ∃ e, getFromDatastore l n.Datastore p = .error e) →
      Resolve l n p timeout usecache
        = ⟨Ret.returned s none, (putToDatastore l n.Datastore p pth).2, false⟩ := by
    intro l hnet' hseg' hfg'
    have hs := returnSegment_of_getElem l pth s hseg'
    rcases hfg' with rfl | ⟨e, he⟩
    · simp [Resolve, Resolve.network, hnet', hs]
    · cases usecache <;> simp [Resolve, Resolve.network, hnet', hs, he]
  refine ⟨key lib hnet hseg hfg, ?_⟩
  intro put
  rw [key { lib with Put := put } hnet hseg hfg]

/-- C15. `ResolveAltRoot` returns the same result whatever the datastore holds and whatever
`Get` and `Put` would do, and leaves the datastore as it was, starting no goroutine: on a
failed network resolution it returns the empty string with the network error, on a
successful one the second segment of the path with a nil error. -/
theorem ResolveAltRoot_bypasses_datastore (lib : Lib σ)
    (namesys : String → Nat → Option Nat → Except Error Path) (p : PeerID)
    (altRoot : String) (timeout : Nat) (store store' : σ) :
    (ResolveAltRoot lib ⟨namesys, store⟩ p altRoot timeout).ret
        = (ResolveAltRoot lib ⟨namesys, store'⟩ p altRoot timeout).ret
      ∧ (∀ (get : σ → String → Except Error String)
          (put : σ → String → String → Option Error × σ),
          ResolveAltRoot { lib with Get := get, Put := put } ⟨namesys, store⟩ p altRoot timeout
            = ResolveAltRoot lib ⟨namesys, store⟩ p altRoot timeout)
      ∧ (ResolveAltRoot lib ⟨namesys, store⟩ p altRoot timeout).datastore = store
      ∧ (ResolveAltRoot lib ⟨namesys, store⟩ p altRoot timeout).spawned = false
      ∧ (∀ e, namesys ("/ipns/" ++ lib.Pretty p ++ ":" ++ altRoot) timeout none = .error e →
          (ResolveAltRoot lib ⟨namesys, store⟩ p altRoot timeout).ret
            = Ret.returned "" (some e))
      ∧ (∀ pth s, namesys ("/ipns/" ++ lib.Pretty p ++ ":" ++ altRoot) timeout none = .ok pth →
          (lib.Segments pth)[1]? = some s →
          (ResolveAltRoot lib ⟨namesys, store⟩ p altRoot timeout).ret
            = Ret.returned s none) := by
  refine ⟨?_, ?_, ?_, ?_, ?_, ?_⟩
  · rcases h : namesys ("/ipns/" ++ lib.Pretty p ++ ":" ++ altRoot) timeout none with e | pth <;>
      simp [ResolveAltRoot, h]
  · intro get put
    rfl
  · rcases h : namesys ("/ipns/" ++ lib.Pretty p ++ ":" ++ altRoot) timeout none with e | pth <;>
      simp [ResolveAltRoot, h]
  · rcases h : namesys ("/ipns/" ++ lib.Pretty p ++ ":" ++ altRoot) timeout none with e | pth <;>
      simp [ResolveAltRoot, h]
  · intro e he
    simp [ResolveAltRoot, he]
  · intro pth s hpth hseg
    simp [ResolveAltRoot, hpth, returnSegment_of_getElem lib pth s hseg]

end

/-- Witness of C14: the name system resolves the peer to `/ipfs/zb2new` and the datastore is
on a full disk, so `Put` fails: `Resolve` returns `zb2new` with a nil error. -/
theorem Resolve_success_survives_write_failure_witness :
    (putToDatastore fullDiskLib [] "QmPeer" "/ipfs/zb2new").1
        = some (Error.other "no space left on device")
      ∧ Resolve fullDiskLib ⟨online, []⟩ "QmPeer" 5 true
        = ⟨Ret.returned "zb2new" none, [], false⟩ :=
  ⟨rfl,
    (Resolve_success_survives_write_failure fullDiskLib ⟨online, []⟩ "QmPeer" 5 true
      "/ipfs/zb2new" "zb2new" rfl (by decide)
      (Or.inr ⟨Error.ErrResolveFailed, rfl⟩)).1⟩

end Ipfs

namespace Zcashd

/-- C12 fails on the code. The cache holds 5 for `USD` and the Kraken provider receives a
ticker whose field `c` is the empty list: the round of `fetchCurrentRates` panics in
`KrakenDecoder.decode` and takes `GetLatestRate` with it, so `GetLatestRate` returns nothing,
while `GetExchangeRate` returns 5 with a nil error, on the cache before the round and on the
cache the round leaves alike. -/
theorem GetLatestRate_panics_with_the_round :
    (ZcashPriceFetcher.GetLatestRate intOps
        ⟨usdCache, [answering .KrakenDecoder
          "https://api.kraken.com/0/public/Ticker?pair=ZECXBT" krakenEmptyC, bitfinexTwo]⟩
        "USD").ret
        = RateRet.panic "runtime error: index out of range"
      ∧ (ZcashPriceFetcher.GetExchangeRate intOps
          ⟨(ZcashPriceFetcher.fetchCurrentRates intOps
              ⟨usdCache, [answering .KrakenDecoder
                "https://api.kraken.com/0/public/Ticker?pair=ZECXBT" krakenEmptyC,
                bitfinexTwo]⟩).cache,
            [answering .KrakenDecoder
              "https://api.kraken.com/0/public/Ticker?pair=ZECXBT" krakenEmptyC, bitfinexTwo]⟩
          "USD").ret
        = RateRet.returned 5 none
      ∧ (ZcashPriceFetcher.GetExchangeRate intOps
          ⟨usdCache, [answering .KrakenDecoder
            "https://api.kraken.com/0/public/Ticker?pair=ZECXBT" krakenEmptyC, bitfinexTwo]⟩
          "USD").ret
        = RateRet.returned 5 none :=
  ⟨rfl, rfl, rfl⟩

end Zcashd
